import Mathlib

/-!
Verification of the root-cause-service pipeline (a CVE root-cause analysis
tool).  The Python sources are shallowly embedded: pure string/list
manipulations become Lean functions on `String`/`List`, Python `dict`/JSON
values become an explicit `JVal` inductive, exceptions become `Except Unit`,
and network calls become explicit parameters carrying the fetched result.
Each embedded definition cites the source file and lines it mirrors.
-/

/-! ## String helpers (Python `in`, `endswith`, `split`) -/

/-- Python substring test `pat in s`, on character lists.  `listContains pat cs`
is true iff `pat` occurs contiguously inside `cs` (the empty pattern always
occurs, as in Python). -/
def listContains (pat : List Char) : List Char → Bool
  | [] => pat.isEmpty
  | c :: rest => pat.isPrefixOf (c :: rest) || listContains pat rest

/-- Python `pat in s` on strings. -/
def strContains (s pat : String) : Bool := listContains pat.data s.data

/-- Python `s.endswith(suffix)`. -/
def strEndsWith (s suffix : String) : Bool := suffix.data.isSuffixOf s.data

/-- Python `s.lower()`, character by character (the filenames and URLs in this
code base are ASCII, where Python `str.lower` and `Char.toLower` agree). -/
def pyLower (s : String) : String := String.mk (s.data.map Char.toLower)

theorem listContains_infixTest (pat cs : List Char) :
    listContains pat cs = true ↔ pat <:+: cs := by
  induction cs with
  | nil =>
    simp [listContains, List.isEmpty_iff, List.infix_nil]
  | cons c rest ih =>
    simp only [listContains, Bool.or_eq_true, List.isPrefixOf_iff_prefix, ih,
      List.infix_cons_iff]

/-! ## URL classifier (src/utils/url_classifier.py)

`URLClassifier` keeps nine per-bucket lists as instance state; `classify`
appends each input URL to exactly one list via an ordered if/elif chain and
returns the dict of the nine lists.  The structure below is that instance
state; `URLClassifier.classify` folds the chain over the input list. -/

structure URLClassifier where
  bitbucket_urls : List String
  sourceware_urls : List String
  gitlab_urls : List String
  commit_urls : List String
  pull_urls : List String
  issues_urls : List String
  patch_urls : List String
  github_urls : List String
  other_urls : List String
deriving DecidableEq, Repr

/-- A freshly constructed `URLClassifier()` (src/utils/url_classifier.py lines
15-24): all nine lists empty. -/
def URLClassifier.init : URLClassifier := ⟨[], [], [], [], [], [], [], [], []⟩

/-- The exclude list of known-noisy hosts (url_classifier.py line 40). -/
def urlExcludes : List String := ["redhat", "netapp"]

/-- The path markers used by the `github` rule (url_classifier.py lines 57-66). -/
def githubPathMarkers : List String :=
  ["/commit", "/pull", "/issues", "/security/advisories", "/tag"]

/-- The nine bucket labels of the returned dict (url_classifier.py lines 71-81). -/
inductive Bucket where
  | bitbucket | sourceware | gitlab | commit | pull | issues | patch | github | other
deriving DecidableEq, Repr

/-- The body of the classification loop for a single URL
(url_classifier.py lines 42-69): the ordered if/elif chain, appending the URL
to the matching bucket's list. -/
def classifyOne (st : URLClassifier) (url : String) : URLClassifier :=
  if strContains url "bitbucket" then
    { st with bitbucket_urls := st.bitbucket_urls ++ [url] }
  else if strContains url "sourceware.org" &&
      (strContains url "commitdiff" || strContains url "blobdiff" ||
        strContains url ";h=") then
    { st with sourceware_urls := st.sourceware_urls ++ [url] }
  else if strContains url "gitlab.com" && strContains url "/-/commit" then
    { st with gitlab_urls := st.gitlab_urls ++ [url] }
  else if strContains url "/commit" &&
      urlExcludes.all (fun item => !strContains url item) then
    { st with commit_urls := st.commit_urls ++ [url] }
  else if strContains url "/pull" &&
      urlExcludes.all (fun item => !strContains url item) then
    { st with pull_urls := st.pull_urls ++ [url] }
  else if strContains url "/issues" &&
      urlExcludes.all (fun item => !strContains url item) then
    { st with issues_urls := st.issues_urls ++ [url] }
  else if strContains url "/security/advisories" || strContains url "/tag" then
    { st with patch_urls := st.patch_urls ++ [url] }
  else if strContains url "github" &&
      !(githubPathMarkers.any (fun sub => strContains url sub)) then
    { st with github_urls := st.github_urls ++ [url] }
  else
    { st with other_urls := st.other_urls ++ [url] }

/-- `URLClassifier.classify` (url_classifier.py lines 26-81): run the chain on
every URL in order, mutating the instance state.  The returned dict is the
nine lists of the resulting state (see `URLClassifier.bucket`). -/
def URLClassifier.classify (st : URLClassifier) (unique_links : List String) :
    URLClassifier :=
  unique_links.foldl classifyOne st

/-- Projection of the returned dict: the list stored under each bucket label. -/
def URLClassifier.bucket (st : URLClassifier) : Bucket → List String
  | .bitbucket => st.bitbucket_urls
  | .sourceware => st.sourceware_urls
  | .gitlab => st.gitlab_urls
  | .commit => st.commit_urls
  | .pull => st.pull_urls
  | .issues => st.issues_urls
  | .patch => st.patch_urls
  | .github => st.github_urls
  | .other => st.other_urls

/-- The bucket a single URL is assigned to: the same ordered chain as
`classifyOne`, first match wins, returning the label instead of appending. -/
def bucketOf (url : String) : Bucket :=
  if strContains url "bitbucket" then .bitbucket
  else if strContains url "sourceware.org" &&
      (strContains url "commitdiff" || strContains url "blobdiff" ||
        strContains url ";h=") then .sourceware
  else if strContains url "gitlab.com" && strContains url "/-/commit" then .gitlab
  else if strContains url "/commit" &&
      urlExcludes.all (fun item => !strContains url item) then .commit
  else if strContains url "/pull" &&
      urlExcludes.all (fun item => !strContains url item) then .pull
  else if strContains url "/issues" &&
      urlExcludes.all (fun item => !strContains url item) then .issues
  else if strContains url "/security/advisories" || strContains url "/tag" then .patch
  else if strContains url "github" &&
      !(githubPathMarkers.any (fun sub => strContains url sub)) then .github
  else .other

/-- Append a URL to the list of a given bucket. -/
def addToBucket (st : URLClassifier) : Bucket → String → URLClassifier
  | .bitbucket, url => { st with bitbucket_urls := st.bitbucket_urls ++ [url] }
  | .sourceware, url => { st with sourceware_urls := st.sourceware_urls ++ [url] }
  | .gitlab, url => { st with gitlab_urls := st.gitlab_urls ++ [url] }
  | .commit, url => { st with commit_urls := st.commit_urls ++ [url] }
  | .pull, url => { st with pull_urls := st.pull_urls ++ [url] }
  | .issues, url => { st with issues_urls := st.issues_urls ++ [url] }
  | .patch, url => { st with patch_urls := st.patch_urls ++ [url] }
  | .github, url => { st with github_urls := st.github_urls ++ [url] }
  | .other, url => { st with other_urls := st.other_urls ++ [url] }

theorem classifyOne_eq_addToBucket (st : URLClassifier) (url : String) :
    classifyOne st url = addToBucket st (bucketOf url) url := by
  simp only [classifyOne, bucketOf]
  split_ifs <;> rfl

theorem addToBucket_bucket (st : URLClassifier) (bb b : Bucket) (url : String) :
    (addToBucket st bb url).bucket b =
      st.bucket b ++ (if bb = b then [url] else []) := by
  cases bb <;> cases b <;> simp [addToBucket, URLClassifier.bucket]

theorem classifyOne_bucket (st : URLClassifier) (url : String) (b : Bucket) :
    (classifyOne st url).bucket b =
      st.bucket b ++ (if bucketOf url = b then [url] else []) := by
  rw [classifyOne_eq_addToBucket, addToBucket_bucket]

theorem classify_bucket (st : URLClassifier) (urls : List String) (b : Bucket) :
    (st.classify urls).bucket b =
      st.bucket b ++ urls.filter (fun u => decide (bucketOf u = b)) := by
  induction urls generalizing st with
  | nil => simp [URLClassifier.classify]
  | cons u us ih =>
    show ((classifyOne st u).classify us).bucket b = _
    rw [ih, classifyOne_bucket]
    by_cases h : bucketOf u = b <;>
      simp [List.filter_cons, h, List.append_assoc]

theorem mem_classify_init (urls : List String) (url : String) (b : Bucket) :
    url ∈ (URLClassifier.init.classify urls).bucket b ↔
      url ∈ urls ∧ bucketOf url = b := by
  rw [classify_bucket]
  cases b <;>
    simp [URLClassifier.init, URLClassifier.bucket, List.mem_filter]

/-- C1: classifying a list of URLs on a fresh classifier assigns each input URL
to exactly one of the nine buckets; the bucket is `bucketOf url`, the ordered
first-match-wins rule chain of section 4.2 evaluated on the URL string alone;
hence per-URL assignment is stable under any reordering of the input list. -/
theorem classify_assigns_exactly_one_bucket
    (urls : List String) (url : String) (h : url ∈ urls) :
    (∃! b : Bucket, url ∈ (URLClassifier.init.classify urls).bucket b) ∧
    (∀ b : Bucket,
      url ∈ (URLClassifier.init.classify urls).bucket b ↔ bucketOf url = b) ∧
    (∀ urls' : List String, urls.Perm urls' → ∀ b : Bucket,
      (url ∈ (URLClassifier.init.classify urls).bucket b ↔
        url ∈ (URLClassifier.init.classify urls').bucket b)) := by
  refine ⟨⟨bucketOf url, ?_, ?_⟩, ?_, ?_⟩
  · exact (mem_classify_init urls url _).mpr ⟨h, rfl⟩
  · intro b hb
    exact ((mem_classify_init urls url b).mp hb).2.symm
  · intro b
    rw [mem_classify_init]
    exact ⟨fun hb => hb.2, fun hb => ⟨h, hb⟩⟩
  · intro urls' hperm b
    rw [mem_classify_init, mem_classify_init]
    exact ⟨fun hb => ⟨hperm.mem_iff.mp hb.1, hb.2⟩,
      fun hb => ⟨hperm.mem_iff.mpr hb.1, hb.2⟩⟩

/-- Witness for `classify_assigns_exactly_one_bucket` at a concrete input. -/
theorem classify_assigns_exactly_one_bucket_witness :
    (∃! b : Bucket,
      "https://github.com/acme/foo/commit/abc1" ∈
        (URLClassifier.init.classify
          ["https://github.com/acme/foo/commit/abc1"]).bucket b) ∧
    (∀ b : Bucket,
      "https://github.com/acme/foo/commit/abc1" ∈
        (URLClassifier.init.classify
          ["https://github.com/acme/foo/commit/abc1"]).bucket b ↔
        bucketOf "https://github.com/acme/foo/commit/abc1" = b) ∧
    (∀ urls' : List String,
      ["https://github.com/acme/foo/commit/abc1"].Perm urls' → ∀ b : Bucket,
      ("https://github.com/acme/foo/commit/abc1" ∈
        (URLClassifier.init.classify
          ["https://github.com/acme/foo/commit/abc1"]).bucket b ↔
        "https://github.com/acme/foo/commit/abc1" ∈
          (URLClassifier.init.classify urls').bucket b)) :=
  classify_assigns_exactly_one_bucket _ _ (by simp)

/-- C8 counterexample: `classify` appends to persistent instance state, so a
second call to the same `URLClassifier` instance with the identical list does
NOT return the dict of the first call: each URL is appended a second time.
Here the first call returns `other = ["x"]` while the second returns
`other = ["x", "x"]`. -/
theorem classify_second_call_differs :
    ((URLClassifier.init.classify ["x"]).classify ["x"]).bucket .other ≠
      (URLClassifier.init.classify ["x"]).bucket .other ∧
    ((URLClassifier.init.classify ["x"]).classify ["x"]).bucket .other =
      ["x", "x"] := by
  constructor <;> decide

/-- C8 amended: per-URL classification is deterministic, so a second
`classify` call on a freshly constructed classifier returns the same dict;
but a second call on the SAME instance returns each bucket list doubled,
because the per-bucket lists are instance state that the call appends to. -/
theorem classify_twice_doubles_buckets (urls : List String) (b : Bucket) :
    ((URLClassifier.init.classify urls).classify urls).bucket b =
      (URLClassifier.init.classify urls).bucket b ++
        (URLClassifier.init.classify urls).bucket b := by
  rw [classify_bucket, classify_bucket]
  cases b <;> simp [URLClassifier.init, URLClassifier.bucket]

/-! ## Source-file filter (src/agents/base_analyser.py) -/

/-- `BaseAnalyser.VALID_EXTENSIONS` (base_analyser.py lines 32-35). -/
def VALID_EXTENSIONS : List String :=
  [".java", ".go", ".py", ".c", ".cpp", ".cs", ".js", ".ts", ".php", ".rb",
   ".groovy", ".rs", ".in", ".jelly", ".inc", ".rh", ".bat"]

/-- `BaseAnalyser.is_valid_source_file` (base_analyser.py lines 125-143):
`filename.endswith(VALID_EXTENSIONS) and "test" not in filename.lower()`. -/
def is_valid_source_file (filename : String) : Bool :=
  VALID_EXTENSIONS.any (fun ext => strEndsWith filename ext) &&
    !strContains (pyLower filename) "test"

/-- C10: the shared source-file filter accepts a filename iff it ends with one
of the 17 allow-listed extensions and the substring "test" does not occur
anywhere in the lowercased full path; consequently `latest.c` and
`contest/util.py` are rejected (their paths contain "test"), and `.h` or `.md`
files are rejected even when they are the files actually patched. -/
theorem is_valid_source_file_iff :
    (∀ filename : String,
      is_valid_source_file filename = true ↔
        ((∃ ext ∈ VALID_EXTENSIONS, ext.data <:+ filename.data) ∧
          ¬ ("test".data <:+: (pyLower filename).data))) ∧
    is_valid_source_file "latest.c" = false ∧
    is_valid_source_file "contest/util.py" = false ∧
    is_valid_source_file "parser.h" = false ∧
    is_valid_source_file "README.md" = false ∧
    is_valid_source_file "src/app/main.py" = true := by
  refine ⟨fun filename => ?_, by decide, by decide, by decide, by decide, by decide⟩
  simp only [is_valid_source_file, Bool.and_eq_true, List.any_eq_true,
    Bool.not_eq_true', strEndsWith, strContains, List.isSuffixOf_iff_suffix]
  constructor
  · rintro ⟨⟨ext, hmem, hsuf⟩, hndef⟩
    refine ⟨⟨ext, hmem, hsuf⟩, fun hinf => ?_⟩
    rw [(listContains_infixTest _ _).mpr hinf] at hndef
    simp at hndef
  · rintro ⟨⟨ext, hmem, hsuf⟩, hninf⟩
    refine ⟨⟨ext, hmem, hsuf⟩, ?_⟩
    cases hcl : listContains "test".data (pyLower filename).data with
    | false => rfl
    | true => exact absurd ((listContains_infixTest _ _).mp hcl) hninf

/-! ## Input field validation (src/helper.py) -/

/-- Python exceptions distinguished by the embedding. -/
inductive PyExn where
  | attributeError
deriving DecidableEq, Repr

/-- One input record, as accessed by `validate_and_extract_fields` via
`pkg_entry.get(key, None)` (helper.py lines 64-66): each field is `None` when
absent. -/
structure PkgEntry where
  purl : Option String
  repo : Option String
  cve : Option String
deriving DecidableEq, Repr

/-- Python `s.split(sep, 1)[1]`-style helper: the characters after the first
occurrence of `sep`, or `none` when `sep` does not occur (in which case the
`[1]` index raises `IndexError`). -/
def splitFirstRest (cs : List Char) (sep : Char) : Option (List Char) :=
  match cs with
  | [] => none
  | c :: rest => if c = sep then some rest else splitFirstRest rest sep

/-- `extract_ecosystem` (helper.py lines 81-93):
`pkg_name.split(":", 1)[1].split("/", 1)[0]` with `except IndexError`
returning `None` (Python falls off the function).  Calling it with
`pkg_name = None` raises `AttributeError` (`None.split`), which the
`except IndexError` clause does NOT catch. -/
def extract_ecosystem : Option String → Except PyExn (Option String)
  | none => .error .attributeError
  | some pkg_name =>
    match splitFirstRest pkg_name.data ':' with
    | none => .ok none
    | some rest => .ok (some (String.mk (rest.takeWhile (fun c => c ≠ '/'))))

/-- `validate_and_extract_fields` (helper.py lines 62-78): reads the three
fields (missing fields only produce a log line), then calls
`extract_ecosystem(purl)` and returns the 4-tuple. -/
def validate_and_extract_fields (pkg_entry : PkgEntry) :
    Except PyExn (Option String × Option String × Option String × Option String) :=
  match extract_ecosystem pkg_entry.purl with
  | .error e => .error e
  | .ok ecosystem => .ok (pkg_entry.purl, pkg_entry.repo, pkg_entry.cve, ecosystem)

/-- C9 counterexample: on a record with `purl` missing, the claim says
`validate_and_extract_fields` returns a tuple rather than raising; in fact
`extract_ecosystem(None)` evaluates `None.split(":", 1)` which raises
`AttributeError`, and only `IndexError` is caught, so the call raises. -/
theorem validate_raises_on_missing_purl :
    validate_and_extract_fields
      ⟨none, some "https://github.com/acme/foo", some "CVE-2024-0001"⟩ =
      .error .attributeError := rfl

/-- C9 amended: field validation tolerates any combination of absent `repo`
and `cve` and any malformed `purl` STRING without raising — when `purl` is a
string the function always returns the 4-tuple, and when that string has no
":" the ecosystem is `None` (the `IndexError` is caught and logged) — but an
absent (`None`) `purl` raises an uncaught `AttributeError`. -/
theorem splitFirstRest_eq_none (cs : List Char) (sep : Char)
    (h : listContains [sep] cs = false) : splitFirstRest cs sep = none := by
  induction cs with
  | nil => rfl
  | cons c rest ih =>
    simp only [listContains, Bool.or_eq_false_iff] at h
    have hc : ¬ c = sep := by
      intro he
      subst he
      simp [List.isPrefixOf] at h
    simp [splitFirstRest, if_neg hc, ih h.2]

theorem validate_tolerates_string_purl (e : PkgEntry) (s : String)
    (h : e.purl = some s) :
    (∃ eco, validate_and_extract_fields e = .ok (some s, e.repo, e.cve, eco)) ∧
    (strContains s ":" = false →
      validate_and_extract_fields e = .ok (some s, e.repo, e.cve, none)) := by
  constructor
  · rcases hsp : splitFirstRest s.data ':' with _ | rest
    · exact ⟨none, by simp [validate_and_extract_fields, extract_ecosystem, h, hsp]⟩
    · exact ⟨some (String.mk (rest.takeWhile (fun c => c ≠ '/'))),
        by simp [validate_and_extract_fields, extract_ecosystem, h, hsp]⟩
  · intro hc
    have hsp : splitFirstRest s.data ':' = none :=
      splitFirstRest_eq_none s.data ':' (by simpa [strContains] using hc)
    simp [validate_and_extract_fields, extract_ecosystem, h, hsp]

/-- Witness for `validate_tolerates_string_purl` at a concrete record. -/
theorem validate_tolerates_string_purl_witness :
    (∃ eco,
      validate_and_extract_fields ⟨some "pkg:npm/foo", some "r", some "CVE-1"⟩ =
        .ok (some "pkg:npm/foo", some "r", some "CVE-1", eco)) ∧
    (strContains "pkg:npm/foo" ":" = false →
      validate_and_extract_fields ⟨some "pkg:npm/foo", some "r", some "CVE-1"⟩ =
        .ok (some "pkg:npm/foo", some "r", some "CVE-1", none)) :=
  validate_tolerates_string_purl ⟨some "pkg:npm/foo", some "r", some "CVE-1"⟩
    "pkg:npm/foo" rfl

/-! ## JSON values (Python dicts/lists as produced by `json.loads`)

Python JSON values are modeled by `JVal`.  Numbers are modeled as integers
(the inputs relevant to the claims use none of the float-specific behavior);
objects keep their key/value pairs in insertion order with Python's
last-occurrence-wins lookup. -/

inductive JVal where
  | null
  | bool (b : Bool)
  | num (n : Int)
  | str (s : String)
  | arr (xs : List JVal)
  | obj (kvs : List (String × JVal))
deriving Repr

/-- Structural equality, mirroring Python `==` on JSON values (for the
string/number/list values compared by the code; dict comparison in Python is
order-insensitive, but no claim compares dicts). -/
def JVal.beq : JVal → JVal → Bool
  | .null, .null => true
  | .bool a, .bool b => a == b
  | .num a, .num b => a == b
  | .str a, .str b => a == b
  | .arr [], .arr [] => true
  | .arr (x :: xs), .arr (y :: ys) => JVal.beq x y && JVal.beq (.arr xs) (.arr ys)
  | .obj [], .obj [] => true
  | .obj ((k, v) :: xs), .obj ((k2, v2) :: ys) =>
      k == k2 && JVal.beq v v2 && JVal.beq (.obj xs) (.obj ys)
  | _, _ => false

/-- Python `v == "lit"` for a JSON value against a string literal: true iff
`v` is that string (this specialization of `==` reduces definitionally,
unlike the general `JVal.beq`). -/
def JVal.eqStr (v : JVal) (s : String) : Bool :=
  match v with
  | .str t => t == s
  | _ => false

/-- Python truthiness of a JSON value (`if x:`). -/
def JVal.truthy : JVal → Bool
  | .null => false
  | .bool b => b
  | .num n => n != 0
  | .str s => s ≠ ""
  | .arr xs => !xs.isEmpty
  | .obj kvs => !kvs.isEmpty

/-- Python `dict` lookup on the insertion-ordered pair list: the LAST binding
of a key wins, as with duplicate keys in `json.loads`. -/
def pyLookup (kvs : List (String × JVal)) (key : String) : Option JVal :=
  kvs.foldl (fun acc p => if p.1 = key then some p.2 else acc) none

/-- Python `key in v`: key test for dicts, membership for lists, substring
test for strings; anything else raises `TypeError` (modeled as `.error`). -/
def pyInOp (v : JVal) (key : String) : Except Unit Bool :=
  match v with
  | .obj kvs => .ok (pyLookup kvs key).isSome
  | .arr xs => .ok (xs.any (fun x => JVal.beq x (.str key)))
  | .str s => .ok (strContains s key)
  | _ => .error ()

/-- Python `v[key]` with a string key: dict indexing (raising `KeyError` when
absent); on any non-dict it raises `TypeError`. -/
def pyIndexKey (v : JVal) (key : String) : Except Unit JVal :=
  match v with
  | .obj kvs =>
    match pyLookup kvs key with
    | some x => .ok x
    | none => .error ()
  | _ => .error ()

/-- Python `v[i]` with an integer index on a list (raising `IndexError` when
out of range); on non-lists it raises `TypeError`. -/
def pyIndexNat (v : JVal) (i : Nat) : Except Unit JVal :=
  match v with
  | .arr xs =>
    match xs.get? i with
    | some x => .ok x
    | none => .error ()
  | _ => .error ()

/-- Python `v.get(key, default)`: only dicts have `.get`; on anything else it
raises `AttributeError`. -/
def pyGetDefault (v : JVal) (key : String) (dflt : JVal) : Except Unit JVal :=
  match v with
  | .obj kvs => .ok ((pyLookup kvs key).getD dflt)
  | _ => .error ()

/-- Python `v.get(key)` (default `None`). -/
def pyGet (v : JVal) (key : String) : Except Unit JVal :=
  pyGetDefault v key .null

/-- Python `for x in v`: lists yield elements, dicts yield their keys,
strings yield their one-character substrings; anything else raises
`TypeError`. -/
def pyIter (v : JVal) : Except Unit (List JVal) :=
  match v with
  | .arr xs => .ok xs
  | .obj kvs => .ok (kvs.map (fun p => JVal.str p.1))
  | .str s => .ok (s.data.map (fun c => JVal.str (String.mk [c])))
  | _ => .error ()

/-- Python `str(v)` for the values interpolated into f-strings. -/
def pyStr : JVal → String
  | .null => "None"
  | .bool true => "True"
  | .bool false => "False"
  | .num n => toString n
  | .str s => s
  | .arr _ => "<list>"
  | .obj _ => "<dict>"

/-! ## JSON text parsing (Python `json.loads`)

A fuel-indexed recursive-descent parser over the character list.  It covers
the JSON fragment exercised by this code base: objects, arrays, strings with
simple escapes, integer numbers, `true`/`false`/`null`, and whitespace; it
consumes the entire input (as `json.loads` does). -/

def lbraceChar : Char := Char.ofNat 123

def rbraceChar : Char := Char.ofNat 125

def isWsChar (c : Char) : Bool := c = ' ' || c = '\n' || c = '\t' || c = '\r'

def skipWs (cs : List Char) : List Char := cs.dropWhile isWsChar

def unescapeChar (c : Char) : Char :=
  if c = 'n' then '\n'
  else if c = 't' then '\t'
  else if c = 'r' then '\r'
  else if c = 'b' then Char.ofNat 8
  else if c = 'f' then Char.ofNat 12
  else c

def parseStrChars : Nat → List Char → Option (List Char × List Char)
  | 0, _ => none
  | _, [] => none
  | fuel + 1, c :: cs =>
    if c = '\"' then some ([], cs)
    else if c = '\\' then
      match cs with
      | [] => none
      | e :: cs2 =>
        match parseStrChars fuel cs2 with
        | none => none
        | some (r, rest) => some (unescapeChar e :: r, rest)
    else
      match parseStrChars fuel cs with
      | none => none
      | some (r, rest) => some (c :: r, rest)

def parseDigits (cs : List Char) : Option (Nat × List Char) :=
  let ds := cs.takeWhile Char.isDigit
  if ds.isEmpty then none
  else some (ds.foldl (fun acc c => acc * 10 + (c.toNat - 48)) 0,
    cs.dropWhile Char.isDigit)

def parseIntNum (cs : List Char) : Option (Int × List Char) :=
  match cs with
  | '-' :: rest => (parseDigits rest).map (fun p => (-(p.1 : Int), p.2))
  | _ => (parseDigits cs).map (fun p => ((p.1 : Int), p.2))

mutual

def parseVal : Nat → List Char → Option (JVal × List Char)
  | 0, _ => none
  | fuel + 1, cs =>
    match skipWs cs with
    | [] => none
    | c :: rest =>
      if c = lbraceChar then parseObjBody fuel rest
      else if c = '[' then parseArrBody fuel rest
      else if c = '\"' then
        match parseStrChars fuel rest with
        | none => none
        | some (s, r) => some (.str (String.mk s), r)
      else if c = 't' then
        if rest.take 3 = ['r', 'u', 'e'] then some (.bool true, rest.drop 3)
        else none
      else if c = 'f' then
        if rest.take 4 = ['a', 'l', 's', 'e'] then some (.bool false, rest.drop 4)
        else none
      else if c = 'n' then
        if rest.take 3 = ['u', 'l', 'l'] then some (.null, rest.drop 3)
        else none
      else if c == '-' || c.isDigit then
        match parseIntNum (c :: rest) with
        | none => none
        | some (n, r) => some (.num n, r)
      else none

def parseObjBody : Nat → List Char → Option (JVal × List Char)
  | 0, _ => none
  | fuel + 1, cs =>
    match skipWs cs with
    | [] => none
    | c :: rest =>
      if c = rbraceChar then some (.obj [], rest)
      else parseObjPairs fuel (c :: rest)

def parseObjPairs : Nat → List Char → Option (JVal × List Char)
  | 0, _ => none
  | fuel + 1, cs =>
    match skipWs cs with
    | [] => none
    | c :: rest =>
      if c = '\"' then
        match parseStrChars fuel rest with
        | none => none
        | some (k, r1) =>
          match skipWs r1 with
          | ':' :: r2 =>
            match parseVal fuel r2 with
            | none => none
            | some (v, r3) =>
              match skipWs r3 with
              | c2 :: r4 =>
                if c2 = rbraceChar then some (.obj [(String.mk k, v)], r4)
                else if c2 = ',' then
                  match parseObjPairs fuel r4 with
                  | some (.obj kvs, r5) => some (.obj ((String.mk k, v) :: kvs), r5)
                  | _ => none
                else none
              | [] => none
          | _ => none
      else none

def parseArrBody : Nat → List Char → Option (JVal × List Char)
  | 0, _ => none
  | fuel + 1, cs =>
    match skipWs cs with
    | [] => none
    | c :: rest =>
      if c = ']' then some (.arr [], rest)
      else parseArrItems fuel (c :: rest)

def parseArrItems : Nat → List Char → Option (JVal × List Char)
  | 0, _ => none
  | fuel + 1, cs =>
    match parseVal fuel cs with
    | none => none
    | some (v, r1) =>
      match skipWs r1 with
      | c :: r2 =>
        if c = ']' then some (.arr [v], r2)
        else if c = ',' then
          match parseArrItems fuel r2 with
          | some (.arr xs, r3) => some (.arr (v :: xs), r3)
          | _ => none
        else none
      | [] => none

end

/-- `json.loads` on a string: parse one value and require only whitespace to
remain. -/
def jsonParse (s : String) : Option JVal :=
  match parseVal (4 * s.data.length + 16) s.data with
  | none => none
  | some (v, rest) => if (skipWs rest).isEmpty then some v else none

/-! ## Consensus-response cleaning (src/parser/llm_json_extractor.py)

`extract_clean_json` (llm_json_extractor.py lines 30-51) runs
`re.search(r"(\{[\s\S]*}|\[[\s\S]*])", text)`: the leftmost position where a
brace (preferred) or bracket alternative can match, with a GREEDY body, i.e.
the span runs from that opener to the LAST corresponding closer anywhere in
the rest of the text.  The span is then validated with `json.loads`; on
success `json_str.strip()` is returned, on any failure (no match, or parse
error) the function returns `None`. -/

/-- Python `s.strip()`. -/
def pyStrip (s : String) : String :=
  String.mk (((s.data.dropWhile isWsChar).reverse.dropWhile isWsChar).reverse)

/-- The prefix of `cs` ending at the last occurrence of `closer`
(meaningful when `closer ∈ cs`): the greedy `[\s\S]*` body plus the closer. -/
def takeUpToLast (closer : Char) : List Char → List Char
  | [] => []
  | c :: rest =>
    if rest.contains closer then c :: takeUpToLast closer rest
    else if c = closer then [c]
    else []

/-- The span matched by `re.search(r"(\{[\s\S]*}|\[[\s\S]*])", text)`:
scan left to right for the first opener that has a later matching closer;
take everything up to the last such closer. -/
def findBlock : List Char → Option (List Char)
  | [] => none
  | c :: rest =>
    if c = lbraceChar && rest.contains rbraceChar then
      some (lbraceChar :: takeUpToLast rbraceChar rest)
    else if c = '[' && rest.contains ']' then
      some ('[' :: takeUpToLast ']' rest)
    else findBlock rest

/-- `extract_clean_json` (llm_json_extractor.py lines 30-51). -/
def extract_clean_json (text : String) : Option String :=
  match findBlock text.data with
  | none => none
  | some cs =>
    match jsonParse (String.mk cs) with
    | none => none
    | some _ => some (pyStrip (String.mk cs))

/-! ## Storage gate for consensus responses
(src/agents/github_analyser.py lines 163-176, identical in
gitlab_analyser.py lines 123-135 and sourceware_analyser.py lines 164-177)

After `generate_consensus` returns the raw response, the analyzer runs
`clean = extract_clean_json(...)`, `consensus_json = json.loads(clean)`
(raising `TypeError` when `clean` is `None`), then stores the entry iff
`"root_cause_functions" in consensus_json` and the value is a list and
non-empty; every exception in this block is caught and nothing is stored.
The result is the consensus value stored via `log_consensus_entry`, or
`none` when nothing is stored. -/

def process_file_storage (consensus_result : String) : Option JVal :=
  match extract_clean_json consensus_result with
  | none => none
  | some clean =>
    match jsonParse clean with
    | none => none
    | some cj =>
      match pyInOp cj "root_cause_functions" with
      | .error _ => none
      | .ok false => none
      | .ok true =>
        match pyIndexKey cj "root_cause_functions" with
        | .error _ => none
        | .ok (.arr xs) => if xs.length > 0 then some cj else none
        | .ok _ => none

/-- C5 counterexample: the cleaner does NOT extract the first balanced
block.  On the response text `{"a": 1} }` the greedy regex matches from the
first opening brace to the LAST closing brace, producing the unparseable span
`{"a": 1} }`, so `extract_clean_json` returns `None` — although the balanced,
parseable block `{"a": 1}` occurs in the text (so by the claim the cleaner
should have extracted it rather than return `None`). -/
theorem extract_clean_json_not_first_balanced :
    extract_clean_json "\x7b\"a\": 1\x7d \x7d" = none ∧
    jsonParse "\x7b\"a\": 1\x7d" = some (JVal.obj [("a", JVal.num 1)]) ∧
    strContains "\x7b\"a\": 1\x7d \x7d" "\x7b\"a\": 1\x7d" = true ∧
    process_file_storage
      "consensus: \x7b\"root_cause_functions\": [\"f\"]\x7d trailing \x7d" =
      none := by
  refine ⟨rfl, rfl, rfl, rfl⟩

/-- C5 amended: the defensive cleaner extracts the span from the first
opening brace/bracket (that has a later matching closer) to the LAST
corresponding closer in the text — not the first balanced block — returning
it iff it parses as JSON and `None` otherwise; and a consensus entry is
appended to the store if and only if that cleaned span parses as a JSON
OBJECT containing the key `root_cause_functions` whose value is a non-empty
list.  A response lacking the key, or whose value is not a list or is empty,
or whose cleaned span is not a JSON object (so the key test or the indexing
raises), is discarded and nothing is stored. -/
theorem consensus_stored_iff (resp : String) :
    (process_file_storage resp).isSome = true ↔
      ∃ clean kvs xs, extract_clean_json resp = some clean ∧
        jsonParse clean = some (JVal.obj kvs) ∧
        pyLookup kvs "root_cause_functions" = some (JVal.arr xs) ∧ xs ≠ [] := by
  unfold process_file_storage
  cases he : extract_clean_json resp with
  | none => simp
  | some clean =>
    cases hp : jsonParse clean with
    | none => simp [hp]
    | some cj =>
      cases cj with
      | null => simp [hp, pyInOp]
      | bool b => simp [hp, pyInOp]
      | num n => simp [hp, pyInOp]
      | str s =>
        cases hc : strContains s "root_cause_functions" <;>
          simp [hp, pyInOp, hc, pyIndexKey]
      | arr ys =>
        cases hc : ys.any (fun x => JVal.beq x (.str "root_cause_functions")) <;>
          simp [hp, pyInOp, hc, pyIndexKey]
      | obj kvs =>
        cases hl : pyLookup kvs "root_cause_functions" with
        | none => simp [hp, pyInOp, hl]
        | some v =>
          cases v with
          | arr xs =>
            cases xs with
            | nil => simp [hp, pyInOp, hl, pyIndexKey]
            | cons x xs' => simp [hp, pyInOp, hl, pyIndexKey]
          | null => simp [hp, pyInOp, hl, pyIndexKey]
          | bool b => simp [hp, pyInOp, hl, pyIndexKey]
          | num n => simp [hp, pyInOp, hl, pyIndexKey]
          | str s => simp [hp, pyInOp, hl, pyIndexKey]
          | obj kvs2 => simp [hp, pyInOp, hl, pyIndexKey]

/-! ## Commit/repo matching and reference URLs
(src/parser/rcs_format.py lines 21-73, src/agents/base_analyser.py 67-97) -/

/-- Minimal `urllib.parse.urlparse` for the `http(s)://host/path` URLs this
code handles: returns `(scheme, netloc, path)`, with query/fragment stripped
from the path. -/
def splitFirstSubstr : List Char → List Char → Option (List Char × List Char)
  | [], pat => if pat.isEmpty then some ([], []) else none
  | c :: rest, pat =>
    if pat.isPrefixOf (c :: rest) then some ([], (c :: rest).drop pat.length)
    else
      match splitFirstSubstr rest pat with
      | none => none
      | some (b, a) => some (c :: b, a)

def urlparse3 (url : String) : String × String × String :=
  match splitFirstSubstr url.data "://".data with
  | none => ("", "", url)
  | some (schemeCs, rest) =>
    let netloc := rest.takeWhile (fun c => !(c == '/') && !(c == '?') && !(c == '#'))
    let afterNetloc := rest.dropWhile (fun c => !(c == '/') && !(c == '?') && !(c == '#'))
    let path := afterNetloc.takeWhile (fun c => !(c == '?') && !(c == '#'))
    (String.mk schemeCs, String.mk netloc, String.mk path)

/-- `_owner_base` (rcs_format.py lines 21-45):
`scheme://netloc/owner` lowercased (owner keeps its case), or `""` when the
URL lacks a scheme, netloc or owner segment. -/
def owner_base (url : String) : String :=
  if url = "" then ""
  else
    let parts := urlparse3 url
    if parts.1 = "" || parts.2.1 = "" then ""
    else
      let pathStripped := parts.2.2.data.dropWhile (fun c => c == '/')
      let owner := pathStripped.takeWhile (fun c => !(c == '/'))
      if owner.isEmpty then ""
      else pyLower parts.1 ++ "://" ++ pyLower parts.2.1 ++ "/" ++ String.mk owner

/-- `_commit_matches_repo` (rcs_format.py lines 48-73): empty repo matches
everything; `sourceware.org`/`gitlab.com` hosts are allow-all; otherwise the
owner bases must be equal. -/
def commit_matches_repo (commit_url repo_url : String) : Bool :=
  if repo_url = "" then true
  else
    let commit_host := pyLower (urlparse3 commit_url).2.1
    if ["sourceware.org", "gitlab.com"].any (fun host => strContains commit_host host)
    then true
    else owner_base commit_url == owner_base repo_url

/-- Python `s.split(sep)` (all occurrences, empty pieces kept). -/
def splitCharList (cs : List Char) (sep : Char) : List (List Char) :=
  match cs with
  | [] => [[]]
  | c :: rest =>
    let r := splitCharList rest sep
    if c = sep then [] :: r
    else
      match r with
      | [] => [[c]]
      | h :: t => (c :: h) :: t

/-- `BaseAnalyser.get_reference_url` (base_analyser.py lines 67-97). -/
def get_reference_url (cve_id url : String) (source : Option String) : String :=
  if source = some "NVD" then "https://nvd.nist.gov/vuln/detail/" ++ cve_id
  else if source = some "OSV" then "https://osv.dev/list?q=" ++ cve_id ++ "&ecosystem="
  else if source = some "Debian" then
    "https://security-tracker.debian.org/tracker/" ++ cve_id
  else if source = some "sourceware" || source = some "gitlab" then
    String.mk (url.data.takeWhile (fun c => !(c == ';')))
  else if source = some "Manual Input" then
    let parts := (splitCharList url.data '/').map String.mk
    if strContains url "github.com" && decide (5 ≤ parts.length) then
      String.intercalate "/" (parts.take 5)
    else url
  else url

/-! ## The consensus store and its text blocks

`BaseAnalyser.log_consensus_entry` (base_analyser.py lines 169-209) appends
to the process-wide `ConsensusStore` one text block

  Root cause exists in the commit URL: commit-url
  Source: source
  Reference URL: reference-url
  json.dumps([consensus_json], indent=2)

`extract_root_cause_functions_from_string` (rcs_format.py lines 76-174)
re-splits the accumulated text on the first marker line and re-parses each
block into exactly these four components (the `Source:`/`Reference URL:`
lines are recognized by prefix, everything else re-parsed with `json.loads`,
yielding the one-element list `[consensus_json]` back).  The embedding
models a stored entry structurally and the serialize/split/deserialize glue
as that block decomposition (`entryBlock`). -/

structure StoreEntry where
  commit_url : String
  source : Option String
  reference_url : String
  consensus : JVal
deriving Repr

/-- `log_consensus_entry`: append the formatted block for one accepted
consensus record (the `filename`/`cve_id` arguments only feed logging and
the reference URL). -/
def log_consensus_entry (store : List StoreEntry) (commit_url : String)
    (consensus_json : JVal) (cve_id : String) (source : Option String) :
    List StoreEntry :=
  store ++ [⟨commit_url, source, get_reference_url cve_id commit_url source,
    consensus_json⟩]

/-- Python `str(x)` for an optional string (`f"Source: {source}"` renders
`None` as the text `None`). -/
def optStr : Option String → String
  | none => "None"
  | some s => s

/-- One re-parsed block of the store text: the commit URL from the marker
line, the `Source:`/`Reference URL:` fields, and the `json.loads` result of
the remaining lines (`none` when malformed or empty). -/
structure RCBlock where
  commit_url : String
  source_name : String
  source_url : String
  parsed : Option JVal
deriving Repr

/-- The block that a stored entry's text re-parses to:
`json.dumps([consensus_json])` round-trips to the one-element list. -/
def entryBlock (e : StoreEntry) : RCBlock :=
  ⟨e.commit_url, optStr e.source, e.reference_url, some (JVal.arr [e.consensus])⟩

/-! ## Re-parsing the store (rcs_format.py lines 76-174) -/

/-- Accumulated per-commit aggregate (the `commits` dict values,
rcs_format.py lines 141-149). -/
structure CommitInfo where
  package : JVal
  version : JVal
  methods : List JVal
  source_name : String
  source_url : String
deriving Repr

/-- Python `x in list-of-JSON-values` via `==`. -/
def pyIn (x : JVal) (l : List JVal) : Bool := l.any (fun y => JVal.beq y x)

/-- The dedup loop `for m in methods: if m not in info["methods"]: append`
(rcs_format.py lines 151-153). -/
def dedupInsert (acc : List JVal) (ms : List JVal) : List JVal :=
  ms.foldl (fun a m => if pyIn m a then a else a ++ [m]) acc

/-- The per-function body of the block loop (rcs_format.py lines 125-129):
`if canonical_names := func.get("canonical_name"): methods.extend(...)`,
then `pkg = pkg or func.get("package", "")` and likewise for the version.
The accumulator is `(methods, pkg, ver)`. -/
def collectFromFunc (acc : List JVal × JVal × JVal) (func : JVal) :
    Except Unit (List JVal × JVal × JVal) := do
  let canon ← pyGet func "canonical_name"
  let methods ←
    if canon.truthy then do
      let items ← pyIter canon
      pure (acc.1 ++ items)
    else pure acc.1
  let pkgv ← pyGetDefault func "package" (JVal.str "")
  let verv ← pyGetDefault func "version" (JVal.str "")
  pure (methods,
    if acc.2.1.truthy then acc.2.1 else pkgv,
    if acc.2.2.truthy then acc.2.2 else verv)

/-- The block-level JSON walk (rcs_format.py lines 123-129):
`for entry in parsed: for func in entry.get("root_cause_functions", []): ...`
starting from `methods = []`, `pkg = ver = ""`.  Exceptions other than
`json.JSONDecodeError` (e.g. iterating a non-list, `.get` on a non-dict)
are NOT caught by the surrounding `try` and propagate. -/
def blockFold (parsed : JVal) : Except Unit (List JVal × JVal × JVal) := do
  let entries ← pyIter parsed
  entries.foldlM
    (fun acc entry => do
      let rcf ← pyGetDefault entry "root_cause_functions" (JVal.arr [])
      let funcs ← pyIter rcf
      funcs.foldlM collectFromFunc acc)
    ([], JVal.str "", JVal.str "")

/-- `commits.setdefault(commit_url, {...})` followed by the method-merge loop
(rcs_format.py lines 141-153), on the insertion-ordered dict. -/
def insertBlock (commits : List (String × CommitInfo)) (url : String)
    (pkg ver : JVal) (sname surl : String) (methods : List JVal) :
    List (String × CommitInfo) :=
  if commits.any (fun p => p.1 == url) then
    commits.map (fun p =>
      if p.1 == url then
        (p.1, { p.2 with methods := dedupInsert p.2.methods methods })
      else p)
  else
    commits ++ [(url, ⟨pkg, ver, dedupInsert [] methods, sname, surl⟩)]

/-- The block loop of `extract_root_cause_functions_from_string`
(rcs_format.py lines 96-153): skip blocks whose commit URL does not match
the repo, skip malformed/empty JSON blocks (`continue`), propagate shape
errors, skip blocks with no collected methods, and merge the rest into the
per-commit dict. -/
def processBlocksAux (repo : String) :
    List RCBlock → List (String × CommitInfo) →
      Except Unit (List (String × CommitInfo))
  | [], commits => .ok commits
  | b :: rest, commits =>
    if !(commit_matches_repo b.commit_url repo) then
      processBlocksAux repo rest commits
    else
      match b.parsed with
      | none => processBlocksAux repo rest commits
      | some parsed =>
        match blockFold parsed with
        | .error e => .error e
        | .ok acc =>
          if acc.1.isEmpty then processBlocksAux repo rest commits
          else
            processBlocksAux repo rest
              (insertBlock commits b.commit_url acc.2.1 acc.2.2
                b.source_name b.source_url acc.1)

/-- `extract_root_cause_functions_from_string` (rcs_format.py lines 76-174),
on the block decomposition of the accumulated store text: the resulting
per-commit aggregates, in first-appearance order (the function then prints
them as a JSON array). -/
def extract_root_cause_functions_from_string (blocks : List RCBlock)
    (repo : String) : Except Unit (List (String × CommitInfo)) :=
  processBlocksAux repo blocks []

/-! ## Round-trip analysis for canonical names (C2) -/

/-- Is the value a JSON string? -/
def JVal.isStr : JVal → Bool
  | .str _ => true
  | _ => false

/-- The names a single function object contributes to `methods`: the value of
its `canonical_name` key when that is a (non-empty) list, nothing otherwise. -/
def funcNames (f : JVal) : List JVal :=
  match f with
  | .obj kvs =>
    match pyLookup kvs "canonical_name" with
    | some (JVal.arr ns) => ns
    | _ => []
  | _ => []

/-- Well-formedness of a function object for the round trip: it is a dict
whose `canonical_name` is either absent, falsy, or a list of strings. -/
def funcOk (f : JVal) : Bool :=
  match f with
  | .obj kvs =>
    match pyLookup kvs "canonical_name" with
    | some (JVal.arr ns) => ns.all JVal.isStr
    | some v => !v.truthy
    | none => true
  | _ => false

/-- Well-formedness of a stored consensus record: a dict whose
`root_cause_functions` is a list of well-formed function objects (this is
the shape the storage gate admits, refined by `funcOk`). -/
def entryOk (e : StoreEntry) : Bool :=
  match e.consensus with
  | .obj kvs =>
    match pyLookup kvs "root_cause_functions" with
    | some (JVal.arr fs) => fs.all funcOk
    | _ => false
  | _ => false

/-- All canonical names carried by a stored consensus record, in order. -/
def entryNames (e : StoreEntry) : List JVal :=
  match e.consensus with
  | .obj kvs =>
    match pyLookup kvs "root_cause_functions" with
    | some (JVal.arr fs) => fs.flatMap funcNames
    | _ => []
  | _ => []

theorem beq_iff_eq_of_isStr {x : JVal} (hx : x.isStr = true) (y : JVal) :
    JVal.beq x y = true ↔ x = y := by
  cases x <;> simp [JVal.isStr] at hx
  cases y <;> simp [JVal.beq]

theorem pyIn_iff_mem {l : List JVal} (hl : ∀ y ∈ l, y.isStr = true) (x : JVal) :
    pyIn x l = true ↔ x ∈ l := by
  simp only [pyIn, List.any_eq_true]
  constructor
  · rintro ⟨y, hy, hb⟩
    exact ((beq_iff_eq_of_isStr (hl y hy) x).mp hb) ▸ hy
  · intro hx
    exact ⟨x, hx, (beq_iff_eq_of_isStr (hl x hx) x).mpr rfl⟩

theorem dedupInsert_spec (ms : List JVal) :
    ∀ (acc : List JVal), (∀ y ∈ acc, y.isStr = true) →
      (∀ y ∈ ms, y.isStr = true) → acc.Nodup →
      (∀ y ∈ dedupInsert acc ms, y.isStr = true) ∧
      (dedupInsert acc ms).Nodup ∧
      (∀ x, x ∈ dedupInsert acc ms ↔ x ∈ acc ∨ x ∈ ms) := by
  induction ms with
  | nil =>
    intro acc hacc _ hnd
    exact ⟨hacc, hnd, by simp [dedupInsert]⟩
  | cons m ms ih =>
    intro acc hacc hms hnd
    have hmStr : m.isStr = true := hms m (by simp)
    have hmsRest : ∀ y ∈ ms, y.isStr = true := fun y hy => hms y (by simp [hy])
    have hstep : dedupInsert acc (m :: ms) =
        dedupInsert (if pyIn m acc then acc else acc ++ [m]) ms := by
      simp [dedupInsert]
    by_cases hin : pyIn m acc = true
    · have hmem : m ∈ acc := (pyIn_iff_mem hacc m).mp hin
      rw [hstep, if_pos hin]
      obtain ⟨h1, h2, h3⟩ := ih acc hacc hmsRest hnd
      refine ⟨h1, h2, fun x => ?_⟩
      rw [h3]
      constructor
      · rintro (hx | hx)
        · exact Or.inl hx
        · exact Or.inr (by simp [hx])
      · rintro (hx | hx)
        · exact Or.inl hx
        · rcases List.mem_cons.mp hx with hx | hx
          · exact Or.inl (hx ▸ hmem)
          · exact Or.inr hx
    · have hnotmem : m ∉ acc := fun hmem =>
        hin ((pyIn_iff_mem hacc m).mpr hmem)
      rw [hstep, if_neg hin]
      have hacc2 : ∀ y ∈ acc ++ [m], y.isStr = true := by
        intro y hy
        rcases List.mem_append.mp hy with hy | hy
        · exact hacc y hy
        · simp at hy
          exact hy ▸ hmStr
      have hnd2 : (acc ++ [m]).Nodup := by
        simp [List.nodup_append, hnd, hnotmem]
      obtain ⟨h1, h2, h3⟩ := ih (acc ++ [m]) hacc2 hmsRest hnd2
      refine ⟨h1, h2, fun x => ?_⟩
      rw [h3]
      simp only [List.mem_append, List.mem_singleton, List.mem_cons]
      tauto

theorem ok_bind {ε α β : Type} (a : α) (f : α → Except ε β) :
    (Except.ok (ε := ε) a >>= f) = f a := rfl

theorem error_bind {ε α β : Type} (e : ε) (f : α → Except ε β) :
    (Except.error (α := α) e >>= f) = Except.error e := rfl

/-- The `pkg`/`ver` fallback read from one function object. -/
def funcPkg (f : JVal) : JVal :=
  match f with
  | .obj kvs => (pyLookup kvs "package").getD (JVal.str "")
  | _ => .null

def funcVer (f : JVal) : JVal :=
  match f with
  | .obj kvs => (pyLookup kvs "version").getD (JVal.str "")
  | _ => .null

theorem collectFromFunc_spec (f : JVal) (hf : funcOk f = true)
    (acc : List JVal × JVal × JVal) :
    collectFromFunc acc f =
      .ok (acc.1 ++ funcNames f,
        if acc.2.1.truthy then acc.2.1 else funcPkg f,
        if acc.2.2.truthy then acc.2.2 else funcVer f) := by
  cases f with
  | obj kvs =>
    cases hl : pyLookup kvs "canonical_name" with
    | none =>
      simp [collectFromFunc, pyGet, pyGetDefault, hl, JVal.truthy, funcNames,
        funcPkg, funcVer, ok_bind]
    | some v =>
      cases v with
      | arr ns =>
        cases ns with
        | nil =>
          simp [collectFromFunc, pyGet, pyGetDefault, hl, JVal.truthy,
            funcNames, funcPkg, funcVer, ok_bind]
        | cons n ns2 =>
          simp [collectFromFunc, pyGet, pyGetDefault, hl, JVal.truthy, pyIter,
            funcNames, funcPkg, funcVer, ok_bind]
      | null =>
        simp [collectFromFunc, pyGet, pyGetDefault, hl, JVal.truthy, funcNames,
          funcPkg, funcVer, ok_bind]
      | bool b =>
        simp [funcOk, hl, JVal.truthy] at hf
        subst hf
        simp [collectFromFunc, pyGet, pyGetDefault, hl, JVal.truthy, funcNames,
          funcPkg, funcVer, ok_bind]
      | num n =>
        simp [funcOk, hl, JVal.truthy] at hf
        simp [collectFromFunc, pyGet, pyGetDefault, hl, JVal.truthy, hf,
          funcNames, funcPkg, funcVer, ok_bind]
      | str s =>
        simp [funcOk, hl, JVal.truthy] at hf
        simp [collectFromFunc, pyGet, pyGetDefault, hl, JVal.truthy, hf,
          funcNames, funcPkg, funcVer, ok_bind]
      | obj kvs2 =>
        simp [funcOk, hl, JVal.truthy] at hf
        simp [collectFromFunc, pyGet, pyGetDefault, hl, JVal.truthy, hf,
          funcNames, funcPkg, funcVer, ok_bind]
  | null => simp [funcOk] at hf
  | bool b => simp [funcOk] at hf
  | num n => simp [funcOk] at hf
  | str s => simp [funcOk] at hf
  | arr xs => simp [funcOk] at hf

theorem foldFuncs_spec (fs : List JVal) :
    ∀ (acc : List JVal × JVal × JVal), (∀ f ∈ fs, funcOk f = true) →
      ∃ p v, fs.foldlM collectFromFunc acc =
        .ok (acc.1 ++ fs.flatMap funcNames, p, v) := by
  induction fs with
  | nil =>
    intro acc _
    exact ⟨acc.2.1, acc.2.2, by simp; rfl⟩
  | cons f fs ih =>
    intro acc hfs
    obtain ⟨p2, v2, hrest⟩ :=
      ih (acc.1 ++ funcNames f,
        (if acc.2.1.truthy then acc.2.1 else funcPkg f),
        (if acc.2.2.truthy then acc.2.2 else funcVer f))
        (fun g hg => hfs g (by simp [hg]))
    refine ⟨p2, v2, ?_⟩
    rw [List.foldlM_cons, collectFromFunc_spec f (hfs f (by simp)) acc, ok_bind]
    simpa [List.append_assoc] using hrest

theorem blockFold_entry (e : StoreEntry) (hok : entryOk e = true) :
    ∃ p v, blockFold (JVal.arr [e.consensus]) = .ok (entryNames e, p, v) := by
  rcases hc : e.consensus with _ | b | n | s | xs | kvs
  · simp [entryOk, hc] at hok
  · simp [entryOk, hc] at hok
  · simp [entryOk, hc] at hok
  · simp [entryOk, hc] at hok
  · simp [entryOk, hc] at hok
  · rcases hl : pyLookup kvs "root_cause_functions" with _ | v
    · simp [entryOk, hc, hl] at hok
    · rcases v with _ | b | n | s | fs | kvs2
      · simp [entryOk, hc, hl] at hok
      · simp [entryOk, hc, hl] at hok
      · simp [entryOk, hc, hl] at hok
      · simp [entryOk, hc, hl] at hok
      · have hfs : ∀ f ∈ fs, funcOk f = true := by
          simp only [entryOk, hc, hl, List.all_eq_true] at hok
          exact hok
        obtain ⟨p, v, hfold⟩ :=
          foldFuncs_spec fs ([], JVal.str "", JVal.str "") hfs
        refine ⟨p, v, ?_⟩
        simp [blockFold, pyIter, pyGetDefault, hl, ok_bind, hfold,
          entryNames, hc]
      · simp [entryOk, hc, hl] at hok

theorem entryNames_isStr (e : StoreEntry) (hok : entryOk e = true) :
    ∀ m ∈ entryNames e, m.isStr = true := by
  intro m hm
  rcases hc : e.consensus with _ | b | n | s | xs | kvs
  · simp [entryOk, hc] at hok
  · simp [entryOk, hc] at hok
  · simp [entryOk, hc] at hok
  · simp [entryOk, hc] at hok
  · simp [entryOk, hc] at hok
  · rcases hl : pyLookup kvs "root_cause_functions" with _ | v
    · simp [entryOk, hc, hl] at hok
    · rcases v with _ | b | n | s | fs | kvs2
      · simp [entryOk, hc, hl] at hok
      · simp [entryOk, hc, hl] at hok
      · simp [entryOk, hc, hl] at hok
      · simp [entryOk, hc, hl] at hok
      · simp only [entryNames, hc, hl] at hm
        simp only [entryOk, hc, hl, List.all_eq_true] at hok
        obtain ⟨f, hfmem, hmf⟩ := List.mem_flatMap.mp hm
        have hf : funcOk f = true := hok f hfmem
        rcases f with _ | b | n | s | fxs | fkvs
        · simp [funcNames] at hmf
        · simp [funcNames] at hmf
        · simp [funcNames] at hmf
        · simp [funcNames] at hmf
        · simp [funcNames] at hmf
        · rcases hfl : pyLookup fkvs "canonical_name" with _ | w
          · simp [funcNames, hfl] at hmf
          · rcases w with _ | b | n | s | ns | wkvs
            · simp [funcNames, hfl] at hmf
            · simp [funcNames, hfl] at hmf
            · simp [funcNames, hfl] at hmf
            · simp [funcNames, hfl] at hmf
            · simp only [funcNames, hfl] at hmf
              simp only [funcOk, hfl, List.all_eq_true] at hf
              exact hf m hmf
            · simp [funcNames, hfl] at hmf
      · simp [entryOk, hc, hl] at hok

theorem processBlocks_inv (repo u : String) (es : List StoreEntry) :
    ∀ info : CommitInfo,
      (∀ e ∈ es, e.commit_url = u) →
      commit_matches_repo u repo = true →
      (∀ e ∈ es, entryOk e = true) →
      (∀ e ∈ es, entryNames e ≠ []) →
      (∀ y ∈ info.methods, y.isStr = true) →
      info.methods.Nodup →
      ∃ info2,
        processBlocksAux repo (es.map entryBlock) [(u, info)] = .ok [(u, info2)] ∧
        (∀ y ∈ info2.methods, y.isStr = true) ∧ info2.methods.Nodup ∧
        (∀ m, m ∈ info2.methods ↔
          m ∈ info.methods ∨ ∃ e ∈ es, m ∈ entryNames e) := by
  induction es with
  | nil =>
    intro info _ _ _ _ hstr hnd
    exact ⟨info, by simp [processBlocksAux], hstr, hnd, by simp⟩
  | cons e es ih =>
    intro info hurl hmatch hok hnames hstr hnd
    have hu : e.commit_url = u := hurl e (by simp)
    obtain ⟨p, v, hbf⟩ := blockFold_entry e (hok e (by simp))
    have hne1 : entryNames e ≠ [] := hnames e (by simp)
    have hempty : (entryNames e).isEmpty = false := by
      cases hE : entryNames e with
      | nil => exact absurd hE hne1
      | cons a l => rfl
    have hestr : ∀ m ∈ entryNames e, m.isStr = true :=
      entryNames_isStr e (hok e (by simp))
    obtain ⟨hstr2, hnd2, hmem2⟩ :=
      dedupInsert_spec (entryNames e) info.methods hstr hestr hnd
    obtain ⟨info3, hrun, hstr3, hnd3, hmem3⟩ :=
      ih { info with methods := dedupInsert info.methods (entryNames e) }
        (fun x hx => hurl x (by simp [hx])) hmatch
        (fun x hx => hok x (by simp [hx]))
        (fun x hx => hnames x (by simp [hx]))
        hstr2 hnd2
    have hstep : processBlocksAux repo ((e :: es).map entryBlock) [(u, info)] =
        processBlocksAux repo (es.map entryBlock)
          [(u, { info with methods := dedupInsert info.methods (entryNames e) })] := by
      simp only [List.map_cons, processBlocksAux, entryBlock, hu, hmatch, hbf,
        hempty, insertBlock]
      simp
    refine ⟨info3, by rw [hstep]; exact hrun, hstr3, hnd3, fun m => ?_⟩
    rw [hmem3]
    have hproj : ({ info with
        methods := dedupInsert info.methods (entryNames e) } : CommitInfo).methods =
        dedupInsert info.methods (entryNames e) := rfl
    rw [hproj, hmem2 m]
    simp only [List.exists_mem_cons_iff]
    tauto

/-- C2 amended: the round trip holds for CANONICAL names.  If consensus
records for one commit URL (matching the target repo) carry their names in
`canonical_name` fields holding lists of strings, then appending them to the
store and re-parsing the accumulated text yields exactly one aggregate for
that commit URL whose `methods` list contains exactly the union of those
names with no duplicates, regardless of how many separate diff units
contributed the same names.  (The original claim fails because the parser
reads the key `canonical_name`, which the consensus-JSON schema requested
from the model — `function_name`, `qualified_name`, `Qualified Name` — never
provides: see the counterexample.) -/
theorem canonical_name_roundtrip (es : List StoreEntry) (u repo : String)
    (hne : es ≠ [])
    (hurl : ∀ e ∈ es, e.commit_url = u)
    (hmatch : commit_matches_repo u repo = true)
    (hok : ∀ e ∈ es, entryOk e = true)
    (hnames : ∀ e ∈ es, entryNames e ≠ []) :
    ∃ info, extract_root_cause_functions_from_string (es.map entryBlock) repo =
        .ok [(u, info)] ∧
      info.methods.Nodup ∧
      (∀ m, m ∈ info.methods ↔ ∃ e ∈ es, m ∈ entryNames e) := by
  cases es with
  | nil => exact absurd rfl hne
  | cons e es =>
    have hu : e.commit_url = u := hurl e (by simp)
    obtain ⟨p, v, hbf⟩ := blockFold_entry e (hok e (by simp))
    have hne1 : entryNames e ≠ [] := hnames e (by simp)
    have hempty : (entryNames e).isEmpty = false := by
      cases hE : entryNames e with
      | nil => exact absurd hE hne1
      | cons a l => rfl
    have hestr : ∀ m ∈ entryNames e, m.isStr = true :=
      entryNames_isStr e (hok e (by simp))
    obtain ⟨hstr0, hnd0, hmem0⟩ :=
      dedupInsert_spec (entryNames e) [] (by simp) hestr (by simp)
    have hstep : extract_root_cause_functions_from_string
        ((e :: es).map entryBlock) repo =
        processBlocksAux repo (es.map entryBlock)
          [(u, ⟨p, v, dedupInsert [] (entryNames e), optStr e.source,
            e.reference_url⟩)] := by
      simp only [extract_root_cause_functions_from_string, List.map_cons,
        processBlocksAux, entryBlock, hu, hmatch, hbf, hempty, insertBlock]
      simp
    obtain ⟨info3, hrun, _, hnd3, hmem3⟩ :=
      processBlocks_inv repo u es
        ⟨p, v, dedupInsert [] (entryNames e), optStr e.source, e.reference_url⟩
        (fun x hx => hurl x (by simp [hx])) hmatch
        (fun x hx => hok x (by simp [hx]))
        (fun x hx => hnames x (by simp [hx]))
        hstr0 hnd0
    refine ⟨info3, by rw [hstep]; exact hrun, hnd3, fun m => ?_⟩
    rw [hmem3]
    have h0 := hmem0 m
    simp only [List.not_mem_nil, false_or] at h0
    simp only [List.exists_mem_cons_iff]
    rw [h0]

/-- A consensus record in exactly the shape the consensus prompt requests
(llm_helper.py lines 146-166): one root-cause function carrying its qualified
name under `Qualified Name` (and, for good measure, `qualified_name`). -/
def qualEntry : StoreEntry :=
  ⟨"https://github.com/acme/foo/commit/abc123", some "NVD",
   "https://nvd.nist.gov/vuln/detail/CVE-2024-0001",
   JVal.obj [("root_cause_functions", JVal.arr [JVal.obj
     [("function_name", JVal.str "parseInput"),
      ("filename", JVal.str "src/parse.c"),
      ("role", JVal.str "sink"),
      ("package", JVal.str "foo"),
      ("version", JVal.str "1.0"),
      ("Qualified Name", JVal.str "foo.parseInput"),
      ("qualified_name", JVal.str "foo.parseInput")]])]⟩

/-- C2 counterexample: a consensus record carrying N = 1 unique qualified
function name (in the `Qualified Name`/`qualified_name` fields the consensus
schema requests), for a commit URL that matches the target repository, passes
the storage gate (`root_cause_functions` is a non-empty list, second
conjunct), yet re-parsing the store yields NO aggregate at all for that
commit URL (first conjunct: the result is the empty dict, not a commit entry
with that 1 name): the parser collects names only from a `canonical_name`
key, which this record — like every record in the documented schema — does
not have. -/
theorem qualified_names_lost_in_roundtrip :
    extract_root_cause_functions_from_string [entryBlock qualEntry]
      "https://github.com/acme/foo" = .ok [] ∧
    pyInOp qualEntry.consensus "root_cause_functions" = .ok true ∧
    pyIndexKey qualEntry.consensus "root_cause_functions" =
      .ok (JVal.arr [JVal.obj
        [("function_name", JVal.str "parseInput"),
         ("filename", JVal.str "src/parse.c"),
         ("role", JVal.str "sink"),
         ("package", JVal.str "foo"),
         ("version", JVal.str "1.0"),
         ("Qualified Name", JVal.str "foo.parseInput"),
         ("qualified_name", JVal.str "foo.parseInput")]]) ∧
    commit_matches_repo "https://github.com/acme/foo/commit/abc123"
      "https://github.com/acme/foo" = true :=
  ⟨rfl, rfl, rfl, rfl⟩

/-- A consensus record whose function carries a `canonical_name` list, the
shape the re-parser actually reads. -/
def canonEntry : StoreEntry :=
  ⟨"https://github.com/acme/foo/commit/abc123", some "NVD",
   "https://nvd.nist.gov/vuln/detail/CVE-2024-0001",
   JVal.obj [("root_cause_functions", JVal.arr [JVal.obj
     [("function_name", JVal.str "parseInput"),
      ("canonical_name", JVal.arr [JVal.str "foo/parse.parseInput(String)"]),
      ("package", JVal.str "foo"),
      ("version", JVal.str "1.0")]])]⟩

/-- Witness for `canonical_name_roundtrip`: two diff units contribute the
same canonical name for the same commit URL; the aggregate carries it once. -/
theorem canonical_name_roundtrip_witness :
    ∃ info, extract_root_cause_functions_from_string
        ([canonEntry, canonEntry].map entryBlock) "" =
        .ok [("https://github.com/acme/foo/commit/abc123", info)] ∧
      info.methods.Nodup ∧
      (∀ m, m ∈ info.methods ↔
        ∃ e ∈ [canonEntry, canonEntry], m ∈ entryNames e) := by
  have hnm : entryNames canonEntry = [JVal.str "foo/parse.parseInput(String)"] :=
    rfl
  refine canonical_name_roundtrip [canonEntry, canonEntry]
    "https://github.com/acme/foo/commit/abc123" "" (by simp) ?_ rfl ?_ ?_
  · intro e he
    simp only [List.mem_cons, List.not_mem_nil, or_false] at he
    rcases he with h | h <;> subst h <;> rfl
  · intro e he
    simp only [List.mem_cons, List.not_mem_nil, or_false] at he
    rcases he with h | h <;> subst h <;> rfl
  · intro e he
    simp only [List.mem_cons, List.not_mem_nil, or_false] at he
    rcases he with h | h <;> subst h <;> simp [hnm]

/-! ## Link discovery (src/utils/link_manager.py, src/managers/manager.py)

Network calls are modeled by their outcomes: each source's extraction either
returns a list of URLs (`.ok`) or raises (`.error`) — `BaseLinkManager.fetch`
raises on any non-200 status (manager.py lines 42-49), and neither
`NvdLinkManager.extract_links_for_cve`, `OsvLinkManager.extract_links_for_cve`
nor `OpenAISearchClient.extract_websearch_links_for_cve` catches anything.
Only `DebianCVETracker.__init__` wraps its fetch in try/except
(manager.py lines 255-276), leaving `soup = None`, after which
`extract_note_urls` returns `[]` (lines 278-305). -/

structure LinkEntry where
  url : String
  source : String
deriving DecidableEq, Repr

/-- `BaseLinkManager.fetch` (manager.py lines 42-49): raise on non-200. -/
def BaseLinkManager.fetch (status : Nat) (body : String) : Except Unit String :=
  if status ≠ 200 then .error () else .ok body

/-- The Debian tracker with the outcome of the page fetch attempted in its
constructor: `.error` means the fetch raised and was caught (`soup = None`). -/
structure DebianCVETracker where
  soup : Except Unit (List String)

/-- `DebianCVETracker.extract_note_urls` (manager.py lines 278-305): empty
when the constructor's fetch failed. -/
def DebianCVETracker.extract_note_urls (t : DebianCVETracker) : List String :=
  match t.soup with
  | .error _ => []
  | .ok urls => urls

/-- The dedup loop of `combine_and_extract_unique_links`
(link_manager.py lines 94-102): seen-set by URL, first occurrence kept. -/
def combineDedup : List LinkEntry → List String → List LinkEntry
  | [], _ => []
  | l :: rest, seen =>
    if seen.contains l.url then combineDedup rest seen
    else l :: combineDedup rest (l.url :: seen)

/-- `LinkManager.combine_and_extract_unique_links` (link_manager.py lines
34-102): construct the Debian tracker (fetch caught), query NVD, OSV, the
tracker's notes, and the web search in order — the NVD/OSV/web-search calls
are NOT wrapped in try/except, so their exceptions propagate — then tag,
concatenate, and deduplicate first-wins. -/
def combine_and_extract_unique_links (tracker : DebianCVETracker)
    (nvd osv websearch : Except Unit (List String)) :
    Except Unit (List LinkEntry) := do
  let links_nvd := (← nvd).map (fun u => LinkEntry.mk u "NVD")
  let links_osv := (← osv).map (fun u => LinkEntry.mk u "OSV")
  let links_security_debian :=
    tracker.extract_note_urls.map (fun u => LinkEntry.mk u "Debian")
  let links_websearch := (← websearch).map (fun u => LinkEntry.mk u "WebSearch")
  pure (combineDedup
    (links_nvd ++ links_osv ++ links_security_debian ++ links_websearch) [])

/-- C3 counterexample: a non-200 NVD page fetch raises
(`BaseLinkManager.fetch`, second conjunct), the exception propagates out of
`combine_and_extract_unique_links`, and the surviving sources' links (here a
Debian link and an OSV link that would have been collected) are NOT returned:
the whole discovery call fails instead of returning normally. -/
theorem nvd_failure_aborts_discovery :
    combine_and_extract_unique_links
      ⟨.ok ["https://github.com/a/b/commit/c1"]⟩
      (.error ()) (.ok ["https://gitlab.com/g/p/-/commit/d2"]) (.ok []) =
      .error () ∧
    BaseLinkManager.fetch 404 "" = .error () :=
  ⟨rfl, rfl⟩

/-- C3 amended: only the Debian tracker is best-effort.  When NVD, OSV and
the web search all succeed, discovery returns normally, and a failed Debian
fetch merely contributes an empty list; but a failure (non-200 status,
connection error, parse error) in NVD, OSV or the web-search call is not
caught anywhere in the discovery path, aborts
`combine_and_extract_unique_links`, and no links are returned from any
source. -/
theorem only_debian_is_best_effort (t : DebianCVETracker)
    (nvdL osvL wsL : List String) :
    (∃ out, combine_and_extract_unique_links t (.ok nvdL) (.ok osvL) (.ok wsL) =
      .ok out) ∧
    (t.soup = .error () →
      combine_and_extract_unique_links t (.ok nvdL) (.ok osvL) (.ok wsL) =
        combine_and_extract_unique_links ⟨.ok []⟩ (.ok nvdL) (.ok osvL)
          (.ok wsL)) ∧
    (∀ osv ws, combine_and_extract_unique_links t (.error ()) osv ws =
      .error ()) ∧
    (∀ ws, combine_and_extract_unique_links t (.ok nvdL) (.error ()) ws =
      .error ()) ∧
    combine_and_extract_unique_links t (.ok nvdL) (.ok osvL) (.error ()) =
      .error () := by
  refine ⟨⟨_, rfl⟩, ?_, fun osv ws => rfl, fun ws => rfl, rfl⟩
  intro hd
  simp [combine_and_extract_unique_links, DebianCVETracker.extract_note_urls, hd,
    ok_bind]

/-- Witness for `only_debian_is_best_effort` at concrete fetch outcomes. -/
theorem only_debian_is_best_effort_witness :
    (∃ out, combine_and_extract_unique_links ⟨.error ()⟩
      (.ok ["https://github.com/a/b/commit/c1"]) (.ok []) (.ok []) = .ok out) ∧
    (DebianCVETracker.soup ⟨.error ()⟩ = .error () →
      combine_and_extract_unique_links ⟨.error ()⟩
        (.ok ["https://github.com/a/b/commit/c1"]) (.ok []) (.ok []) =
        combine_and_extract_unique_links ⟨.ok []⟩
          (.ok ["https://github.com/a/b/commit/c1"]) (.ok []) (.ok [])) ∧
    (∀ osv ws, combine_and_extract_unique_links ⟨.error ()⟩ (.error ()) osv ws =
      .error ()) ∧
    (∀ ws, combine_and_extract_unique_links ⟨.error ()⟩
      (.ok ["https://github.com/a/b/commit/c1"]) (.error ()) ws = .error ()) ∧
    combine_and_extract_unique_links ⟨.error ()⟩
      (.ok ["https://github.com/a/b/commit/c1"]) (.ok []) (.error ()) =
      .error () :=
  only_debian_is_best_effort ⟨.error ()⟩ ["https://github.com/a/b/commit/c1"]
    [] []

/-! ## Dispatch preparation (src/helpers/processor.py lines 73-90)

`MainProcessor.run` appends an optional `Manual Input` entry to the
discovered links, builds `url_to_source = {entry["url"]: entry["source"]}` —
a Python dict comprehension, so a later entry for the same URL OVERWRITES
the earlier source while keeping the key's first-insertion position — takes
`urls = list(url_to_source.keys())`, and dispatches each URL with
`url_to_source.get(url, ...)`. -/

/-- The dict comprehension `{e["url"]: e["source"] for e in raw_links}` on
the insertion-ordered association list: existing key updated in place
(last value wins), new key appended. -/
def buildUrlToSource (links : List LinkEntry) : List (String × String) :=
  links.foldl
    (fun acc e =>
      if acc.any (fun p => p.1 == e.url) then
        acc.map (fun p => if p.1 == e.url then (p.1, e.source) else p)
      else acc ++ [(e.url, e.source)])
    []

/-- `url_to_source.get(url, default)`, just without the default (keys are
unique by construction). -/
def lookupSource (m : List (String × String)) (url : String) : Option String :=
  (m.find? (fun p => p.1 == url)).map (fun p => p.2)

/-- The pre-dispatch part of `MainProcessor.run` (processor.py lines 73-81):
append the manual entry when a repo URL was given, then build the dict. -/
def MainProcessor.prepare (discovered : List LinkEntry) (github_url : String) :
    List (String × String) :=
  let raw_links :=
    if github_url = "" then discovered
    else discovered ++ [LinkEntry.mk github_url "Manual Input"]
  buildUrlToSource raw_links

theorem combineDedup_cons_seen {l : LinkEntry} {ls : List LinkEntry}
    {seen : List String} (h : seen.contains l.url = true) :
    combineDedup (l :: ls) seen = combineDedup ls seen := by
  have hm : l.url ∈ seen := by simpa using h
  simp [combineDedup, hm]

theorem combineDedup_cons_new {l : LinkEntry} {ls : List LinkEntry}
    {seen : List String} (h : seen.contains l.url = false) :
    combineDedup (l :: ls) seen = l :: combineDedup ls (l.url :: seen) := by
  have hm : l.url ∉ seen := by simpa using h
  simp [combineDedup, hm]

theorem combineDedup_find (links : List LinkEntry) :
    ∀ (seen : List String) (u : String), u ∉ seen →
      (combineDedup links seen).find? (fun e => e.url == u) =
        links.find? (fun e => e.url == u) := by
  induction links with
  | nil => intro seen u _; rfl
  | cons l ls ih =>
    intro seen u hu
    cases hc : seen.contains l.url with
    | true =>
      have hmem : l.url ∈ seen := by simpa using hc
      have hlu : (l.url == u) = false := by
        cases h : (l.url == u) with
        | false => rfl
        | true =>
          have heq : l.url = u := beq_iff_eq.mp h
          exact absurd (heq ▸ hmem) hu
      rw [combineDedup_cons_seen hc, ih seen u hu, List.find?_cons, hlu]
    | false =>
      rw [combineDedup_cons_new hc, List.find?_cons, List.find?_cons]
      cases hfind : (l.url == u) with
      | true => rfl
      | false =>
        have hu2 : u ∉ l.url :: seen := by
          intro h
          rcases List.mem_cons.mp h with h | h
          · rw [h] at hfind
            simp at hfind
          · exact hu h
        exact ih (l.url :: seen) u hu2

theorem combineDedup_nodup (links : List LinkEntry) :
    ∀ seen : List String,
      (∀ e ∈ combineDedup links seen, e.url ∉ seen) ∧
      ((combineDedup links seen).map (fun e => e.url)).Nodup := by
  induction links with
  | nil => intro seen; simp [combineDedup]
  | cons l ls ih =>
    intro seen
    cases hc : seen.contains l.url with
    | true =>
      rw [combineDedup_cons_seen hc]
      exact ih seen
    | false =>
      rw [combineDedup_cons_new hc]
      have hnmem : l.url ∉ seen := by simpa using hc
      obtain ⟨hnot, hnd⟩ := ih (l.url :: seen)
      have hrest : ∀ e ∈ combineDedup ls (l.url :: seen),
          e.url ≠ l.url ∧ e.url ∉ seen := by
        intro e he
        have := hnot e he
        simp only [List.mem_cons] at this
        exact ⟨fun h => this (Or.inl h), fun h => this (Or.inr h)⟩
      constructor
      · intro e he
        rcases List.mem_cons.mp he with h | h
        · subst h
          exact hnmem
        · exact (hrest e h).2
      · rw [List.map_cons, List.nodup_cons]
        refine ⟨fun h => ?_, hnd⟩
        obtain ⟨e, he, heq⟩ := List.mem_map.mp h
        exact (hrest e he).1 heq

theorem buildUrlToSource_disjoint (d : List LinkEntry) :
    ∀ acc : List (String × String),
      (d.map (fun e => e.url)).Nodup →
      (∀ e ∈ d, ∀ p ∈ acc, p.1 ≠ e.url) →
      d.foldl
        (fun acc e =>
          if acc.any (fun p => p.1 == e.url) then
            acc.map (fun p => if p.1 == e.url then (p.1, e.source) else p)
          else acc ++ [(e.url, e.source)])
        acc = acc ++ d.map (fun e => (e.url, e.source)) := by
  induction d with
  | nil => intro acc _ _; simp
  | cons e es ih =>
    intro acc hnd hdisj
    have hany : acc.any (fun p => p.1 == e.url) = false := by
      rw [List.any_eq_false]
      intro p hp hbeq
      exact hdisj e (by simp) p hp (beq_iff_eq.mp hbeq)
    rw [List.foldl_cons, hany]
    simp only [Bool.false_eq_true, if_false]
    have hnd2 : (es.map (fun e => e.url)).Nodup := by
      simpa using hnd.of_cons
    have hdisj2 : ∀ x ∈ es, ∀ p ∈ acc ++ [(e.url, e.source)], p.1 ≠ x.url := by
      intro x hx p hp
      rcases List.mem_append.mp hp with hp | hp
      · exact hdisj x (by simp [hx]) p hp
      · simp only [List.mem_singleton] at hp
        subst hp
        intro habs
        have : e.url ∈ es.map (fun e => e.url) :=
          List.mem_map.mpr ⟨x, hx, habs.symm⟩
        rw [List.map_cons, List.nodup_cons] at hnd
        exact hnd.1 this
    rw [ih (acc ++ [(e.url, e.source)]) hnd2 hdisj2]
    simp

theorem updateKey_comp (g src u : String) :
    ((fun p : String × String => p.1 == u) ∘
      (fun p : String × String => if p.1 == g then (p.1, src) else p)) =
      fun p : String × String => p.1 == u := by
  funext p
  by_cases h : (p.1 == g) = true <;> simp [Function.comp, h]

theorem lookupSource_update_hit (m : List (String × String)) (g src : String)
    (h : (m.find? (fun p => p.1 == g)).isSome = true) :
    lookupSource (m.map (fun p => if p.1 == g then (p.1, src) else p)) g =
      some src := by
  rw [lookupSource, List.find?_map, updateKey_comp]
  cases hfind : m.find? (fun p => p.1 == g) with
  | none => rw [hfind] at h; simp at h
  | some q =>
    have hq0 := List.find?_some hfind
    have hq : (q.1 == g) = true := hq0
    simp [hq, beq_iff_eq.mp hq]

theorem lookupSource_update_miss (m : List (String × String)) (g src u : String)
    (hu : u ≠ g) :
    lookupSource (m.map (fun p => if p.1 == g then (p.1, src) else p)) u =
      lookupSource m u := by
  rw [lookupSource, List.find?_map, updateKey_comp]
  cases hfind : m.find? (fun p => p.1 == u) with
  | none => simp [lookupSource, hfind]
  | some q =>
    have hq0 := List.find?_some hfind
    have hq : (q.1 == u) = true := hq0
    have hqg : (q.1 == g) = false := by
      cases hg : (q.1 == g) with
      | false => rfl
      | true =>
        exact absurd ((beq_iff_eq.mp hq).symm.trans (beq_iff_eq.mp hg)) hu
    have hne : q.1 ≠ g := by
      intro he
      rw [he] at hqg
      simp at hqg
    simp [lookupSource, hfind, hne]

theorem lookupSource_append_new (m : List (String × String)) (g src : String)
    (h : m.any (fun p => p.1 == g) = false) :
    lookupSource (m ++ [(g, src)]) g = some src := by
  have hfind : m.find? (fun p => p.1 == g) = none := by
    rw [List.find?_eq_none]
    intro p hp
    exact fun hbeq => by
      rw [List.any_eq_false] at h
      exact h p hp hbeq
  simp [lookupSource, List.find?_append, hfind, List.find?_cons]

theorem lookupSource_append_other (m : List (String × String)) (g src u : String)
    (hu : u ≠ g) :
    lookupSource (m ++ [(g, src)]) u = lookupSource m u := by
  have hgu : ((g, src).1 == u) = false := by
    cases h : ((g, src).1 == u) with
    | false => rfl
    | true => exact absurd (beq_iff_eq.mp h).symm hu
  simp only [lookupSource, List.find?_append]
  cases hfind : m.find? (fun p => p.1 == u) with
  | some p => rfl
  | none => simp [List.find?_cons, hgu]

theorem buildUrlToSource_append_one (d : List LinkEntry) (x : LinkEntry) :
    buildUrlToSource (d ++ [x]) =
      (if (buildUrlToSource d).any (fun p => p.1 == x.url) then
        (buildUrlToSource d).map
          (fun p => if p.1 == x.url then (p.1, x.source) else p)
      else buildUrlToSource d ++ [(x.url, x.source)]) := by
  rw [buildUrlToSource, List.foldl_append]
  rfl

theorem prepare_eq (d : List LinkEntry) (g : String) (hg : ¬ g = "") :
    MainProcessor.prepare d g =
      buildUrlToSource (d ++ [LinkEntry.mk g "Manual Input"]) := by
  simp only [MainProcessor.prepare, if_neg hg]

theorem prepare_manual_lookup (d : List LinkEntry) (g : String) (hg : ¬ g = "") :
    lookupSource (MainProcessor.prepare d g) g = some "Manual Input" := by
  rw [prepare_eq d g hg, buildUrlToSource_append_one]
  dsimp only
  cases hAny : (buildUrlToSource d).any (fun p => p.1 == g) with
  | true =>
    rw [if_pos rfl]
    apply lookupSource_update_hit
    rw [List.find?_isSome]
    simpa using hAny
  | false =>
    rw [if_neg (by simp)]
    exact lookupSource_append_new _ _ _ hAny

theorem lookupSource_map_pairs (d : List LinkEntry) (u : String) :
    lookupSource (d.map (fun e => (e.url, e.source))) u =
      (d.find? (fun e => e.url == u)).map (fun e => e.source) := by
  rw [lookupSource, List.find?_map]
  have hcomp : ((fun p : String × String => p.1 == u) ∘
      (fun e : LinkEntry => (e.url, e.source))) = fun e : LinkEntry => e.url == u :=
    funext fun e => rfl
  rw [hcomp]
  cases d.find? (fun e => e.url == u) <;> rfl

theorem prepare_other_lookup (d : List LinkEntry) (g u : String)
    (hg : ¬ g = "") (hu : u ≠ g) (hnd : (d.map (fun e => e.url)).Nodup) :
    lookupSource (MainProcessor.prepare d g) u =
      (d.find? (fun e => e.url == u)).map (fun e => e.source) := by
  have hbase : buildUrlToSource d = d.map (fun e => (e.url, e.source)) := by
    have := buildUrlToSource_disjoint d [] hnd
      (fun e _ p hp => absurd hp (List.not_mem_nil p))
    simpa [buildUrlToSource] using this
  rw [prepare_eq d g hg, buildUrlToSource_append_one]
  dsimp only
  cases hAny : (buildUrlToSource d).any (fun p => p.1 == g) with
  | true =>
    rw [if_pos rfl, lookupSource_update_miss _ _ _ _ hu, hbase,
      lookupSource_map_pairs]
  | false =>
    rw [if_neg (by simp), lookupSource_append_other _ _ _ _ hu, hbase,
      lookupSource_map_pairs]

/-- C6 counterexample: a URL discovered by NVD and also supplied as the
manual repo input is dispatched with source `Manual Input`, not with the
source of its first occurrence in the sequence (NVD): the `url_to_source`
dict comprehension is last-wins over the appended manual entry.  (Second
conjunct: without the manual append, the same URL's source is `NVD`.) -/
theorem manual_input_overrides_discovered_source :
    lookupSource
      (MainProcessor.prepare
        [LinkEntry.mk "https://github.com/acme/foo/commit/abc1" "NVD"]
        "https://github.com/acme/foo/commit/abc1")
      "https://github.com/acme/foo/commit/abc1" = some "Manual Input" ∧
    lookupSource
      (buildUrlToSource
        [LinkEntry.mk "https://github.com/acme/foo/commit/abc1" "NVD"])
      "https://github.com/acme/foo/commit/abc1" = some "NVD" :=
  ⟨rfl, rfl⟩

/-- C6 amended: deduplication of the four discovery sources is by exact URL
with first-source-wins semantics (each distinct URL appears once, associated
with its first occurrence), and a URL distinct from the manual repo input is
dispatched with that first-seen source; but the manual-input entry appended
last OVERRIDES the stored source for its URL — the dict comprehension is
last-wins — so a manual URL duplicating a discovered URL is dispatched with
source `Manual Input` rather than the first-seen source. -/
theorem dedup_first_wins_manual_overrides
    (discovered : List LinkEntry) (g : String) (hg : g ≠ "")
    (hnd : (discovered.map (fun e => e.url)).Nodup) :
    (∀ links : List LinkEntry,
      ((combineDedup links []).map (fun e => e.url)).Nodup ∧
      ∀ u, (combineDedup links []).find? (fun e => e.url == u) =
        links.find? (fun e => e.url == u)) ∧
    lookupSource (MainProcessor.prepare discovered g) g = some "Manual Input" ∧
    ∀ u, u ≠ g →
      lookupSource (MainProcessor.prepare discovered g) u =
        (discovered.find? (fun e => e.url == u)).map (fun e => e.source) := by
  refine ⟨fun links => ⟨(combineDedup_nodup links []).2, fun u =>
      combineDedup_find links [] u (List.not_mem_nil u)⟩,
    prepare_manual_lookup discovered g hg,
    fun u hu => prepare_other_lookup discovered g u hg hu hnd⟩

/-- Witness for `dedup_first_wins_manual_overrides` at concrete inputs. -/
theorem dedup_first_wins_manual_overrides_witness :
    (∀ links : List LinkEntry,
      ((combineDedup links []).map (fun e => e.url)).Nodup ∧
      ∀ u, (combineDedup links []).find? (fun e => e.url == u) =
        links.find? (fun e => e.url == u)) ∧
    lookupSource
      (MainProcessor.prepare [LinkEntry.mk "https://github.com/a/b/commit/c1" "NVD"]
        "https://github.com/x/y") "https://github.com/x/y" =
      some "Manual Input" ∧
    ∀ u, u ≠ "https://github.com/x/y" →
      lookupSource
        (MainProcessor.prepare
          [LinkEntry.mk "https://github.com/a/b/commit/c1" "NVD"]
          "https://github.com/x/y") u =
        ([LinkEntry.mk "https://github.com/a/b/commit/c1" "NVD"].find?
          (fun e => e.url == u)).map (fun e => e.source) :=
  dedup_first_wins_manual_overrides
    [LinkEntry.mk "https://github.com/a/b/commit/c1" "NVD"]
    "https://github.com/x/y" (by decide) (by simp)

/-! ## Consensus store lifecycle (src/utils/consensus_store.py, src/main.py,
src/helpers/processor.py)

`ConsensusStore` is a process-wide append-only list with `add`, `get_all`
and `clear` class methods.  `clear` exists but is invoked NOWHERE in the
code base; the only truncation a run performs is of the `output.txt` FILE in
`MainProcessor.__init__` (processor.py lines 49-50), which is not the store
that `extract_and_build_output` reads — that reads
`ConsensusStore.get_all()` (helper.py line 103).  The operations a run
performs on this shared state are modeled as an explicit op list. -/

inductive StoreOp where
  | add (entry : String)
  | clear
  | truncOutputFile
deriving DecidableEq, Repr

/-- The process state touched by these operations: the in-memory
`ConsensusStore._data` list and the `output.txt` file contents. -/
structure ProcessState where
  consensus_data : List String
  output_txt : List String
deriving DecidableEq, Repr

/-- `ConsensusStore.add` / `ConsensusStore.clear` (consensus_store.py lines
11-36) and the `output.txt` truncation (processor.py lines 49-50). -/
def ConsensusStore.applyOp (st : ProcessState) : StoreOp → ProcessState
  | .add e => { st with consensus_data := st.consensus_data ++ [e] }
  | .clear => { st with consensus_data := [] }
  | .truncOutputFile => { st with output_txt := [] }

/-- The sequence of store/file operations one run performs, given the entries
its processing appends: `MainProcessor.__init__` truncates `output.txt`, then
each accepted consensus record is `ConsensusStore.add`-ed.  No
`ConsensusStore.clear` appears — the method is never called in the repo. -/
def runStoreOps (appends : List String) : List StoreOp :=
  StoreOp.truncOutputFile :: appends.map StoreOp.add

def run_final_state (init : ProcessState) (appends : List String) : ProcessState :=
  (runStoreOps appends).foldl ConsensusStore.applyOp init

/-- What `extract_and_build_output` reads: `ConsensusStore.get_all()`
(helper.py line 103). -/
def visible_to_extract (st : ProcessState) : List String := st.consensus_data

/-- C7 counterexample: the in-memory consensus store is NOT cleared at the
start of a run.  With an entry left from earlier activity in the same
process, a run that appends one record leaves BOTH visible to
`extract_and_build_output`, not just the run's own record — only the
`output.txt` file (which final assembly does not read) is truncated. -/
theorem store_not_cleared_at_run_start :
    visible_to_extract
      (run_final_state ⟨["prior-entry"], ["prior-file-line"]⟩
        ["current-entry"]) = ["prior-entry", "current-entry"] ∧
    visible_to_extract
      (run_final_state ⟨["prior-entry"], ["prior-file-line"]⟩
        ["current-entry"]) ≠ ["current-entry"] ∧
    (run_final_state ⟨["prior-entry"], ["prior-file-line"]⟩
      ["current-entry"]).output_txt = [] := by
  refine ⟨rfl, by decide, rfl⟩

theorem run_final_state_spec (init : ProcessState) (appends : List String) :
    run_final_state init appends =
      ⟨init.consensus_data ++ appends, []⟩ := by
  rw [run_final_state, runStoreOps]
  induction appends generalizing init with
  | nil => simp [ConsensusStore.applyOp]
  | cons a rest ih =>
    simp only [List.map_cons, List.foldl_cons, ConsensusStore.applyOp] at ih ⊢
    have := ih { init with consensus_data := init.consensus_data ++ [a] }
    simpa [List.append_assoc] using this

/-- C7 amended: no code path clears the in-memory consensus store — a run
only truncates the `output.txt` file (not the source of final assembly) and
appends.  The text visible to `extract_and_build_output` at the end of a run
is therefore whatever the store held at run start followed by this run's
records; it equals exactly this run's records only because a fresh process
starts with an empty store and executes a single run (third conjunct). -/
theorem store_accumulates_without_clear (init : ProcessState)
    (appends : List String) :
    visible_to_extract (run_final_state init appends) =
      init.consensus_data ++ appends ∧
    (run_final_state init appends).output_txt = [] ∧
    visible_to_extract (run_final_state ⟨[], []⟩ appends) = appends ∧
    StoreOp.clear ∉ runStoreOps appends := by
  refine ⟨by rw [run_final_state_spec]; rfl, by rw [run_final_state_spec],
    by rw [run_final_state_spec]; rfl, ?_⟩
  intro h
  rw [runStoreOps] at h
  rcases List.mem_cons.mp h with h | h
  · exact absurd h (by decide)
  · obtain ⟨e, _, habs⟩ := List.mem_map.mp h
    exact absurd habs (by intro he; cases he)

/-! ## VEX output assembly (src/parser/vex_format.py, src/helper.py,
src/main.py)

`main.run` wraps ONLY step 3 (`run_main_processor`) in try/except
(main.py lines 52-60); step 4 (`extract_and_build_output` + `write_output`)
runs unprotected.  Inside step 4, the try/except of
`extract_and_build_output` (helper.py lines 106-118) covers only the
store re-parse — the `VEXBuilder` construction and `build_json` call are
outside it.  `VEXBuilder.__init__` fetches the NVD record with
`get_entire_info` (which catches its own errors and returns `{}`,
manager.py lines 201-227) and then evaluates
`cve_info["vulnerabilities"][0]["cve"]` (vex_format.py line 25), which
raises on the empty dict.  NVD responses are modeled by their outcome. -/

/-- Python `str(...)`-coercion guard: the value must be a string. -/
def asStr (v : JVal) : Except Unit String :=
  match v with
  | .str s => .ok s
  | _ => .error ()

/-- `NvdApiLinkManager.get_entire_info` (manager.py lines 201-227): the
parsed response, or `{}` when the request raised (caught internally). -/
def NvdApiLinkManager.get_entire_info (resp : Except Unit JVal) : JVal :=
  match resp with
  | .ok v => v
  | .error _ => JVal.obj []

/-- The `self.vuln = self.cve_info["vulnerabilities"][0]["cve"]` line of
`VEXBuilder.__init__` (vex_format.py line 25): raises `KeyError`/`IndexError`
on a missing or empty record. -/
def VEXBuilder.init_vuln (cve_info : JVal) : Except Unit JVal := do
  let vulns ← pyIndexKey cve_info "vulnerabilities"
  let first ← pyIndexNat vulns 0
  pyIndexKey first "cve"

def digitsN (n : Nat) (cs : List Char) : Option (List Char) :=
  if (cs.take n).length = n && (cs.take n).all Char.isDigit then some (cs.drop n)
  else none

def expectChar (c : Char) : List Char → Option (List Char)
  | [] => none
  | x :: rest => if x = c then some rest else none

/-- The shape check of `datetime.strptime(ts, "%Y-%m-%dT%H:%M:%S.%f")`
(vex_format.py lines 27-47): digits and separators as in the format, with a
1-6 digit fraction consuming the whole remainder.  (Component range checks —
month 1-12 etc. — are not modeled; the timestamps exercised are valid.)
Returns the date-time part before the dot and the fraction digits. -/
def parseNvdTimestamp (cs : List Char) : Option (List Char × List Char) := do
  let r ← digitsN 4 cs
  let r ← expectChar '-' r
  let r ← digitsN 2 r
  let r ← expectChar '-' r
  let r ← digitsN 2 r
  let r ← expectChar 'T' r
  let r ← digitsN 2 r
  let r ← expectChar ':' r
  let r ← digitsN 2 r
  let r ← expectChar ':' r
  let r ← digitsN 2 r
  let r ← expectChar '.' r
  if 1 ≤ r.length && r.length ≤ 6 && r.all Char.isDigit then
    some (cs.takeWhile (fun c => !(c == '.')), r)
  else none

/-- `VEXBuilder.parse_date`: `strptime` then
`isoformat(timespec="milliseconds") + "Z"` — the fraction is re-emitted as
exactly three millisecond digits (`%f` right-pads to microseconds). -/
def parse_date (ts : String) : Except Unit String :=
  match parseNvdTimestamp ts.data with
  | none => .error ()
  | some (datePart, frac) =>
    .ok (String.mk datePart ++ "." ++
      String.mk ((frac ++ List.replicate 6 '0').take 3) ++ "Z")

/-- `VEXBuilder.extract_description` (vex_format.py lines 49-61): first
English description, `""` when none; a description entry without `lang`
raises. -/
def firstEnDescription : List JVal → Except Unit JVal
  | [] => .ok (JVal.str "")
  | d :: rest => do
    let lang ← pyIndexKey d "lang"
    if lang.eqStr "en" then pyIndexKey d "value"
    else firstEnDescription rest

def extract_description (vuln : JVal) : Except Unit JVal := do
  let descs ← pyGetDefault vuln "descriptions" (JVal.arr [])
  let items ← pyIter descs
  firstEnDescription items

/-- `VEXBuilder.extract_cvss` (vex_format.py lines 63-88): prefer
`cvssMetricV31`, fall back to `cvssMetricV2`, else four empty strings;
returns `(score, severity, vector, method)`. -/
def extract_cvss (vuln : JVal) : Except Unit (String × String × String × String) := do
  let metrics ← pyGetDefault vuln "metrics" (JVal.obj [])
  let h31 ← pyInOp metrics "cvssMetricV31"
  if h31 then
    let lst ← pyIndexKey metrics "cvssMetricV31"
    let m0 ← pyIndexNat lst 0
    let cd ← pyIndexKey m0 "cvssData"
    let vsv ← pyIndexKey cd "vectorString"
    let vs ← asStr vsv
    let method := String.mk (vs.data.takeWhile (fun c => !(c == '/')))
    let vector := String.mk (vs.data.drop (method.data.length + 1))
    let scoreV ← pyGetDefault cd "baseScore" (JVal.str "")
    let sevV ← pyGetDefault cd "baseSeverity" (JVal.str "")
    let sev ← asStr sevV
    pure (pyStr scoreV, pyLower sev, vector, method)
  else
    let h2 ← pyInOp metrics "cvssMetricV2"
    if h2 then
      let lst ← pyIndexKey metrics "cvssMetricV2"
      let m0 ← pyIndexNat lst 0
      let cd ← pyIndexKey m0 "cvssData"
      let vsv ← pyIndexKey cd "vectorString"
      let vs ← asStr vsv
      let scoreV ← pyGetDefault cd "baseScore" (JVal.str "")
      let sevV ← pyGetDefault m0 "baseSeverity" (JVal.str "")
      let sev ← asStr sevV
      pure (pyStr scoreV, pyLower sev, vs, "CVSS:2.0")
    else pure ("", "", "", "")

/-- `re.match(r"CWE-(\d+)", value)`: anchored at the start. -/
def cweMatch (cs : List Char) : Option Int :=
  if "CWE-".data.isPrefixOf cs then
    let ds := (cs.drop 4).takeWhile Char.isDigit
    if ds.isEmpty then none
    else some ((ds.foldl (fun a c => a * 10 + (c.toNat - 48)) 0 : Nat) : Int)
  else none

/-- `VEXBuilder.extract_cwes` (vex_format.py lines 90-106). -/
def extract_cwes (vuln : JVal) : Except Unit (List Int) := do
  let weaknesses ← pyGetDefault vuln "weaknesses" (JVal.arr [])
  let ws ← pyIter weaknesses
  ws.foldlM
    (fun acc w => do
      let descs ← pyGetDefault w "description" (JVal.arr [])
      let ds ← pyIter descs
      ds.foldlM
        (fun acc2 d => do
          let lang ← pyIndexKey d "lang"
          if lang.eqStr "en" then
            let valv ← pyIndexKey d "value"
            let s ← asStr valv
            match cweMatch s.data with
            | some n => pure (acc2 ++ [n])
            | none => pure acc2
          else pure acc2)
        acc)
    []

/-- `VEXBuilder.extract_advisories` (vex_format.py lines 108-125): reference
entries deduplicated by URL; an entry without `url` raises. -/
def extract_advisories (vuln : JVal) : Except Unit (List JVal) := do
  let refs ← pyGetDefault vuln "references" (JVal.arr [])
  let rs ← pyIter refs
  let res ← rs.foldlM
    (fun (acc : List JVal × List JVal) ref => do
      let url ← pyIndexKey ref "url"
      let title ← pyGetDefault ref "tags" (JVal.str "Unknown")
      if pyIn url acc.2 then pure acc
      else pure (acc.1 ++ [JVal.obj [("title", title), ("url", url)]],
        acc.2 ++ [url]))
    ([], [])
  pure res.1

/-- `VEXBuilder.build_json` (vex_format.py lines 127-215): the final VEX
document, with the three hardcoded sources/references and
`created = updated`. -/
def VEXBuilder.build_json (cve_id pkg : String) (output_content : JVal)
    (vuln : JVal) : Except Unit JVal := do
  let description ← extract_description vuln
  let cvss ← extract_cvss vuln
  let cwe_list ← extract_cwes vuln
  let advisories ← extract_advisories vuln
  let pubV ← pyGetDefault vuln "published" (JVal.str "")
  let pubS ← asStr pubV
  let published ← parse_date pubS
  let updV ← pyGetDefault vuln "lastModified" (JVal.str "")
  let updS ← asStr updV
  let updated ← parse_date updS
  pure (JVal.obj [
    ("cve", .str cve_id),
    ("package", .str pkg),
    ("root_cause_functions", output_content),
    ("vex", JVal.obj [
      ("sources", JVal.arr [
        JVal.obj [("source", JVal.obj [("name", .str "NVD"),
          ("url", .str ("https://nvd.nist.gov/vuln/detail/" ++ cve_id))])],
        JVal.obj [("source", JVal.obj [("name", .str "OSV DEV"),
          ("url", .str ("https://osv.dev/vulnerability/" ++ cve_id))])],
        JVal.obj [("source", JVal.obj [("name", .str "Debian Security Tracker"),
          ("url", .str ("https://security-tracker.debian.org/tracker/" ++ cve_id))])]]),
      ("ratings", JVal.arr [JVal.obj [
        ("source", JVal.obj [("name", .str "NVD"),
          ("url", .str ("https://nvd.nist.gov/vuln/detail/" ++ cve_id))]),
        ("score", .str cvss.1),
        ("severity", .str cvss.2.1),
        ("vector", .str cvss.2.2.1),
        ("method", .str cvss.2.2.2)]]),
      ("cwes", JVal.arr (cwe_list.map JVal.num)),
      ("description", description),
      ("detail", description),
      ("recommendation", .str ""),
      ("references", JVal.arr [
        JVal.obj [("id", .str ""), ("source", JVal.obj [("name", .str "NVD"),
          ("url", .str ("https://nvd.nist.gov/vuln/detail/" ++ cve_id))])],
        JVal.obj [("id", .str ""), ("source", JVal.obj [("name", .str "OSV DEV"),
          ("url", .str ("https://osv.dev/vulnerability/" ++ cve_id))])],
        JVal.obj [("source", JVal.obj [("name", .str "Debian Security Tracker"),
          ("url", .str ("https://security-tracker.debian.org/tracker/" ++ cve_id))])]]),
      ("advisories", JVal.arr advisories),
      ("created", .str updated),
      ("published", .str published),
      ("updated", .str updated),
      ("credits", JVal.obj [("individuals",
        JVal.arr [JVal.obj [("name", .str "")]])])])])

/-- Strings the hand-built JSON of `extract_root_cause_functions_from_string`
(rcs_format.py lines 156-174) can interpolate without breaking the JSON it
prints (values are interpolated into f-strings unescaped). -/
def jsonSafeStr (s : String) : Bool :=
  s.data.all (fun c => !(c == '\"') && !(c == '\\') && !(c == '\n') &&
    !(c == '\r') && !(c == '\t'))

def commitSerializable (p : String × CommitInfo) : Bool :=
  jsonSafeStr (pyStr p.2.package) && jsonSafeStr (pyStr p.2.version) &&
    jsonSafeStr p.1 && jsonSafeStr p.2.source_name && jsonSafeStr p.2.source_url

/-- The JSON value that `json.loads` recovers from the array string printed
by `extract_root_cause_functions_from_string` (f-string interpolation,
methods via `json.dumps`). -/
def commitsToJVal (commits : List (String × CommitInfo)) : JVal :=
  JVal.arr (commits.map (fun p => JVal.obj [
    ("package", .str (pyStr p.2.package)),
    ("version", .str (pyStr p.2.version)),
    ("commit", .str p.1),
    ("source", JVal.obj [("name", .str p.2.source_name),
      ("url", .str p.2.source_url)]),
    ("methods", JVal.arr p.2.methods)]))

/-- The `output_content` computed inside `extract_and_build_output`
(helper.py lines 105-118): the try/except covers the store re-parse and the
`json.loads` of its hand-built string, so any failure there (a shape error
from the re-parse, or an interpolated quote/backslash breaking the printed
JSON) leaves `output_content = None`; the happy path yields the parsed
commit array. -/
def run_output_content (store : List StoreEntry) (repo_url : String) : JVal :=
  match extract_root_cause_functions_from_string (store.map entryBlock)
      repo_url with
  | .error _ => JVal.null
  | .ok commits =>
    if commits.all commitSerializable then commitsToJVal commits else JVal.null

/-- `extract_and_build_output` (helper.py lines 101-121): compute
`output_content` under the try/except, then construct the `VEXBuilder`
(whose `__init__` indexes into the NVD record UNPROTECTED) and build the
document. -/
def extract_and_build_output (store : List StoreEntry)
    (cve_id pkg repo_url : String) (nvdResp : Except Unit JVal) :
    Except Unit JVal := do
  let vuln ← VEXBuilder.init_vuln (NvdApiLinkManager.get_entire_info nvdResp)
  VEXBuilder.build_json cve_id pkg (run_output_content store repo_url) vuln

/-- `main.run`, steps 3-4 (main.py lines 52-64): the try/except swallows any
outcome of the main processing step (first argument — only the store contents
it accumulated matter), then step 4 runs UNPROTECTED. -/
def main_run (_processing : Except Unit Unit) (store : List StoreEntry)
    (cve_id pkg repo_url : String) (nvdResp : Except Unit JVal) :
    Except Unit JVal :=
  extract_and_build_output store cve_id pkg repo_url nvdResp

/-- C4 counterexample: when the NVD metadata lookup fails,
`get_entire_info` returns `{}`, `VEXBuilder.__init__` raises `KeyError` on
`cve_info["vulnerabilities"]` OUTSIDE every try/except, and the run dies
without writing the output JSON — both when processing succeeded and when it
failed — contradicting the claim that the run still builds and writes the
final VEX document in that case. -/
theorem nvd_failure_prevents_output :
    main_run (.ok ()) [] "CVE-2024-0001" "pkg:npm/foo"
      "https://github.com/acme/foo" (.error ()) = .error () ∧
    main_run (.error ()) [] "CVE-2024-0001" "pkg:npm/foo"
      "https://github.com/acme/foo" (.error ()) = .error () :=
  ⟨rfl, rfl⟩

theorem build_json_root_cause (cve_id pkg : String) (oc vuln out : JVal)
    (h : VEXBuilder.build_json cve_id pkg oc vuln = .ok out) :
    pyIndexKey out "root_cause_functions" = .ok oc := by
  unfold VEXBuilder.build_json at h
  rcases h1 : extract_description vuln with e | description
  · rw [h1, error_bind] at h
    cases h
  rw [h1, ok_bind] at h
  rcases h2 : extract_cvss vuln with e | cvss
  · rw [h2, error_bind] at h
    cases h
  rw [h2, ok_bind] at h
  rcases h3 : extract_cwes vuln with e | cwe_list
  · rw [h3, error_bind] at h
    cases h
  rw [h3, ok_bind] at h
  rcases h4 : extract_advisories vuln with e | advisories
  · rw [h4, error_bind] at h
    cases h
  rw [h4, ok_bind] at h
  rcases h5 : pyGetDefault vuln "published" (JVal.str "") with e | pubV
  · rw [h5, error_bind] at h
    cases h
  rw [h5, ok_bind] at h
  rcases h6 : asStr pubV with e | pubS
  · rw [h6, error_bind] at h
    cases h
  rw [h6, ok_bind] at h
  rcases h7 : parse_date pubS with e | published
  · rw [h7, error_bind] at h
    cases h
  rw [h7, ok_bind] at h
  rcases h8 : pyGetDefault vuln "lastModified" (JVal.str "") with e | updV
  · rw [h8, error_bind] at h
    cases h
  rw [h8, ok_bind] at h
  rcases h9 : asStr updV with e | updS
  · rw [h9, error_bind] at h
    cases h
  rw [h9, ok_bind] at h
  rcases h10 : parse_date updS with e | updated
  · rw [h10, error_bind] at h
    cases h
  rw [h10, ok_bind] at h
  cases h
  simp [pyIndexKey, pyLookup]

/-- C4 amended: the catch-all in `main.run` covers only the main processing
step — its failure never blocks output assembly, and with a well-formed NVD
record the run produces the VEX document (whose `root_cause_functions` field
is exactly the parsed store content, the empty array when nothing was
accumulated); but the output-assembly step itself is unprotected, so a
failed NVD metadata lookup raises there and NO output is produced. -/
theorem processing_failure_does_not_block_output
    (processing processing2 : Except Unit Unit) (store : List StoreEntry)
    (cve_id pkg repo_url : String) (info vuln out : JVal)
    (hv : VEXBuilder.init_vuln info = .ok vuln)
    (hb : VEXBuilder.build_json cve_id pkg (run_output_content store repo_url)
      vuln = .ok out) :
    main_run processing store cve_id pkg repo_url (.ok info) = .ok out ∧
    main_run processing store cve_id pkg repo_url (.ok info) =
      main_run processing2 store cve_id pkg repo_url (.ok info) ∧
    pyIndexKey out "root_cause_functions" =
      .ok (run_output_content store repo_url) ∧
    main_run processing store cve_id pkg repo_url (.error ()) = .error () := by
  refine ⟨?_, rfl, build_json_root_cause _ _ _ _ _ hb, ?_⟩
  · rw [main_run, extract_and_build_output]
    rw [show NvdApiLinkManager.get_entire_info (.ok info) = info from rfl, hv,
      ok_bind, hb]
  · rfl

def nvdVulnSample : JVal :=
  JVal.obj [("published", .str "2024-01-02T03:04:05.123"),
    ("lastModified", .str "2024-01-02T03:04:05.123"),
    ("descriptions", JVal.arr [JVal.obj [("lang", .str "en"),
      ("value", .str "A vulnerability.")]])]

def nvdInfoSample : JVal :=
  JVal.obj [("vulnerabilities", JVal.arr [JVal.obj [("cve", nvdVulnSample)]])]

def vexOutputSample : JVal :=
  match VEXBuilder.build_json "CVE-2024-0001" "pkg:npm/foo"
      (run_output_content [] "https://github.com/acme/foo") nvdVulnSample with
  | .ok v => v
  | .error _ => JVal.null

/-- Witness for `processing_failure_does_not_block_output`: a failed
processing step with an empty store and a well-formed NVD record still
yields the VEX document. -/
theorem processing_failure_does_not_block_output_witness :
    main_run (.error ()) [] "CVE-2024-0001" "pkg:npm/foo"
      "https://github.com/acme/foo" (.ok nvdInfoSample) = .ok vexOutputSample ∧
    main_run (.error ()) [] "CVE-2024-0001" "pkg:npm/foo"
      "https://github.com/acme/foo" (.ok nvdInfoSample) =
      main_run (.ok ()) [] "CVE-2024-0001" "pkg:npm/foo"
        "https://github.com/acme/foo" (.ok nvdInfoSample) ∧
    pyIndexKey vexOutputSample "root_cause_functions" =
      .ok (run_output_content [] "https://github.com/acme/foo") ∧
    main_run (.error ()) [] "CVE-2024-0001" "pkg:npm/foo"
      "https://github.com/acme/foo" (.error ()) = .error () :=
  processing_failure_does_not_block_output (.error ()) (.ok ()) []
    "CVE-2024-0001" "pkg:npm/foo" "https://github.com/acme/foo" nvdInfoSample
    nvdVulnSample vexOutputSample rfl (by rfl)
